import Mathlib

/-!
Verification development for the `py_manage_nginx` repository.

The Python sources (`hosting.py`, `manager.py`) are shallowly embedded below:
pure string/path manipulation is translated to functions on `List Char` /
`String`, the filesystem is an explicit map `String → Option Node` keyed by
path strings (distinct path strings denote distinct locations; `..` segments
are not resolved by the model, mirroring `pathlib.Path`, which also does not
resolve them), and the three external effects of the lifecycle workflow
(symlink creation by the OS, `nginx -t`, `systemctl reload nginx`) are
supplied as an oracle environment `HostingEnv`.
-/

set_option maxRecDepth 4096

deriving instance DecidableEq for Except

/-! ## Python string primitives on character lists

These mirror the exact `str` methods the sources rely on.  They are written
by structural recursion so that every theorem below can be checked on
concrete inputs by `decide`.
-/

/-- Whitespace test used by `str.strip()` (ASCII fragment, which is all the
sources ever strip). -/
def wsChar (c : Char) : Bool := c.isWhitespace

/-- Remove trailing characters satisfying `p` (right-hand side of
`str.strip()` / all of `str.rstrip()`). -/
def trimEnd (p : Char → Bool) : List Char → List Char
  | [] => []
  | c :: rest =>
    let r := trimEnd p rest
    if r.isEmpty && p c then [] else c :: r

/-- Model of `str.strip()` on a character list: drop leading and trailing whitespace. -/
def trimChars (l : List Char) : List Char := (trimEnd wsChar l).dropWhile wsChar

/-- Model of `str.strip()`. -/
def pyStrip (s : String) : String := String.mk (trimChars s.data)

/-- Model of `str.rstrip()`. -/
def pyRstrip (s : String) : String := String.mk (trimEnd wsChar s.data)

/-- Split a character list at every `'/'`, keeping empty segments, exactly as
`str.split("/")` would. -/
def splitSlash : List Char → List (List Char)
  | [] => [[]]
  | c :: rest =>
    if c = '/' then [] :: splitSlash rest
    else
      match splitSlash rest with
      | [] => [[c]]
      | g :: gs => (c :: g) :: gs

/-- Join segments with `'/'` (inverse direction of `splitSlash`). -/
def joinSlash : List (List Char) → List Char
  | [] => []
  | [g] => g
  | g :: gs => g ++ '/' :: joinSlash gs

/-- Last element of a list of segments, defaulting to the empty segment. -/
def lastSeg : List (List Char) → List Char
  | [] => []
  | [g] => g
  | _ :: gs => lastSeg gs

/-- Does the string start with `'/'`? -/
def startsSlash (s : String) : Bool :=
  match s.data with
  | '/' :: _ => true
  | _ => false

/-- Does the string end with `'/'`? -/
def endsSlash (s : String) : Bool :=
  match s.data.getLast? with
  | some '/' => true
  | _ => false

/-! ## `pathlib` fragment -/

/-- Model of `pathlib.PurePosixPath(s).name`: the final path component, after the
parser has discarded empty components and `"."` components. -/
def pythonPathName (s : String) : String :=
  String.mk (lastSeg ((splitSlash s.data).filter (fun g => !g.isEmpty && g ≠ ['.'])))

/-- Model of `Path(a) / b` on path strings: an absolute right operand replaces the
left one, otherwise the two are joined with a single `'/'`. -/
def pathJoin (a b : String) : String :=
  if b = "" then a
  else if startsSlash b then b
  else if endsSlash a then a ++ b
  else a ++ "/" ++ b

/-- Model of `Path(p).parent`, textually: drop the final `'/'`-separated component. -/
def parentOf (p : String) : String :=
  match splitSlash p.data with
  | [] => "."
  | [_] => "."
  | gs =>
    match joinSlash gs.dropLast with
    | [] => "/"
    | l => String.mk l

/-- All ancestor prefixes of a path (shortest first, the path itself last),
as created by `Path.mkdir(parents=True)`. -/
def pathPrefixes (p : String) : List String :=
  let comps := (splitSlash p.data).filter (fun g => !g.isEmpty)
  (List.range comps.length).map (fun i =>
    let l := joinSlash (comps.take (i + 1))
    if startsSlash p then String.mk ('/' :: l) else String.mk l)

/-- Is `q` strictly inside the directory `root` (string-prefix test)? -/
def isUnder (root q : String) : Bool :=
  List.isPrefixOf (root.data ++ ['/']) q.data

/-! ## `hosting._validate_site_name` -/

/-- Model of `hosting._validate_site_name`: reject names empty after stripping and
names whose `Path(...).name` differs from the stripped name. -/
def _validate_site_name (site_name : String) : Except String Unit :=
  let stripped := pyStrip site_name
  if stripped = "" then .error "site_name must be a non-empty string"
  else if pythonPathName stripped ≠ stripped then
    .error "site_name must not contain path separators"
  else .ok ()

/-! ## Basic lemmas about the string primitives -/

theorem trimEnd_idem (p : Char → Bool) (l : List Char) :
    trimEnd p (trimEnd p l) = trimEnd p l := by
  induction l with
  | nil => rfl
  | cons c rest ih =>
    by_cases h : (trimEnd p rest).isEmpty && p c
    · simp [trimEnd, h]
    · simp only [trimEnd, h, if_false]
      simp only [trimEnd, ih, h, if_false]

theorem dropWhile_dropWhile (p : Char → Bool) (l : List Char) :
    (l.dropWhile p).dropWhile p = l.dropWhile p := by
  induction l with
  | nil => rfl
  | cons c rest ih =>
    by_cases h : p c
    · simp [List.dropWhile, h, ih]
    · simp [List.dropWhile, h]

theorem trimEnd_dropWhile (p : Char → Bool) (l : List Char)
    (h : trimEnd p l = l) : trimEnd p (l.dropWhile p) = l.dropWhile p := by
  induction l with
  | nil => rfl
  | cons c rest ih =>
    by_cases hc : p c
    · simp only [List.dropWhile, hc]
      apply ih
      have hne : trimEnd p (c :: rest) = c :: trimEnd p rest := by
        by_cases he : (trimEnd p rest).isEmpty && p c
        · rw [trimEnd] at h; simp only [he, if_true] at h; exact absurd h (by simp)
        · rw [trimEnd]; simp [he]
      rw [hne] at h
      exact (List.cons.injEq _ _ _ _ ▸ h).2
    · simp only [List.dropWhile, hc]
      exact h

theorem trimChars_idem (l : List Char) : trimChars (trimChars l) = trimChars l := by
  unfold trimChars
  rw [trimEnd_dropWhile wsChar (trimEnd wsChar l) (trimEnd_idem wsChar l)]
  exact dropWhile_dropWhile wsChar (trimEnd wsChar l)

theorem pyStrip_idem (s : String) : pyStrip (pyStrip s) = pyStrip s := by
  unfold pyStrip
  rw [show (String.mk (trimChars s.data)).data = trimChars s.data from rfl]
  rw [trimChars_idem]

theorem splitSlash_ne_nil (l : List Char) : splitSlash l ≠ [] := by
  cases l with
  | nil => simp [splitSlash]
  | cons c rest =>
    by_cases h : c = '/'
    · simp [splitSlash, h]
    · simp only [splitSlash, h, if_false]
      cases splitSlash rest <;> simp

theorem splitSlash_no_slash (l : List Char) :
    ∀ g ∈ splitSlash l, '/' ∉ g := by
  induction l with
  | nil => intro g hg; simp [splitSlash] at hg; simp [hg]
  | cons c rest ih =>
    intro g hg
    by_cases h : c = '/'
    · simp only [splitSlash, h, if_true] at hg
      rcases List.mem_cons.mp hg with h1 | h1
      · simp [h1]
      · exact ih g h1
    · simp only [splitSlash, h, if_false] at hg
      rcases hsplit : splitSlash rest with _ | ⟨g0, gs⟩
      · exact absurd hsplit (splitSlash_ne_nil rest)
      · rw [hsplit] at hg
        rcases List.mem_cons.mp hg with h1 | h1
        · subst h1
          intro hmem
          rcases List.mem_cons.mp hmem with h2 | h2
          · exact h h2.symm
          · exact ih g0 (hsplit ▸ List.mem_cons_self g0 gs) h2
        · exact ih g (hsplit ▸ List.mem_cons_of_mem g0 h1)

theorem lastSeg_mem (L : List (List Char)) :
    lastSeg L = [] ∨ lastSeg L ∈ L := by
  induction L with
  | nil => left; rfl
  | cons g gs ih =>
    cases gs with
    | nil => right; simp [lastSeg]
    | cons g' gs' =>
      rcases ih with h | h
      · left; simpa [lastSeg] using h
      · right; exact List.mem_cons_of_mem g (by simpa [lastSeg] using h)

/-- A string whose `Path(...).name` equals itself contains no `'/'`. -/
theorem pythonPathName_eq_no_slash (s : String)
    (h : pythonPathName s = s) : '/' ∉ s.data := by
  unfold pythonPathName at h
  have hdata : lastSeg ((splitSlash s.data).filter (fun g => !g.isEmpty && g ≠ ['.'])) = s.data := by
    have := congrArg String.data h
    simpa using this
  rcases lastSeg_mem ((splitSlash s.data).filter (fun g => !g.isEmpty && g ≠ ['.'])) with hl | hl
  · rw [hdata] at hl; simp [hl]
  · rw [hdata] at hl
    exact splitSlash_no_slash s.data s.data (List.mem_of_mem_filter hl)

/-- Validation rejects names that are empty after stripping. -/
theorem validate_empty (s : String) (h : pyStrip s = "") :
    _validate_site_name s = .error "site_name must be a non-empty string" := by
  unfold _validate_site_name
  simp [h]

theorem mem_trimEnd_of_not (p : Char → Bool) (c : Char) (hc : p c = false)
    (l : List Char) (h : c ∈ l) : c ∈ trimEnd p l := by
  induction l with
  | nil => cases h
  | cons a rest ih =>
    rcases List.mem_cons.mp h with h1 | h1
    · subst h1
      have : ¬ ((trimEnd p rest).isEmpty && p c) := by simp [hc]
      simp [trimEnd, this]
    · have hmem := ih h1
      have hne : ¬ (trimEnd p rest).isEmpty := by
        intro he
        rw [List.isEmpty_iff.mp he] at hmem
        cases hmem
      have : ¬ ((trimEnd p rest).isEmpty && p a) := by simp [hne]
      simp only [trimEnd, this, if_false]
      exact List.mem_cons_of_mem a hmem

theorem mem_dropWhile_of_not (p : Char → Bool) (c : Char) (hc : p c = false)
    (l : List Char) (h : c ∈ l) : c ∈ l.dropWhile p := by
  induction l with
  | nil => cases h
  | cons a rest ih =>
    by_cases ha : p a
    · rcases List.mem_cons.mp h with h1 | h1
      · subst h1; rw [ha] at hc; cases hc
      · simpa [List.dropWhile, ha] using ih h1
    · have hb : p a = false := by simpa using ha
      simp [List.dropWhile, hb, h]

/-- Non-whitespace characters survive `str.strip()`. -/
theorem mem_pyStrip (s : String) (c : Char) (hc : wsChar c = false)
    (h : c ∈ s.data) : c ∈ (pyStrip s).data := by
  unfold pyStrip trimChars
  exact mem_dropWhile_of_not wsChar c hc _ (mem_trimEnd_of_not wsChar c hc s.data h)

/-- Validation rejects names that keep a `'/'` after stripping. -/
theorem validate_slash (s : String) (h : '/' ∈ (pyStrip s).data) :
    _validate_site_name s = .error "site_name must not contain path separators" := by
  unfold _validate_site_name
  have hne : pyStrip s ≠ "" := by
    intro hcon
    rw [hcon] at h
    simp at h
  have hname : pythonPathName (pyStrip s) ≠ pyStrip s := by
    intro hcon
    exact pythonPathName_eq_no_slash (pyStrip s) hcon h
  simp [hne, hname]

/-- Validation only examines the stripped string. -/
theorem validate_strip (s : String) :
    _validate_site_name s = _validate_site_name (pyStrip s) := by
  unfold _validate_site_name
  rw [pyStrip_idem]

/-! ## Filesystem model

A filesystem state is a map from path strings to nodes.  The lifecycle
workflow only ever follows one level of symbolic link, so `existsAt`
resolves a single link step.
-/

/-- A filesystem node: regular file with text content, symbolic link with a
target path, or directory. -/
inductive Node where
  | file (content : String)
  | symlink (target : String)
  | dir
deriving DecidableEq

/-- A filesystem state. -/
def FS : Type := String → Option Node

/-- Install a node at a path. -/
def FS.set (fs : FS) (p : String) (n : Node) : FS :=
  fun q => if q = p then some n else fs q

/-- Remove whatever is at a path. -/
def FS.del (fs : FS) (p : String) : FS :=
  fun q => if q = p then none else fs q

/-- Model of `Path.exists()`: follows a (single-level) symlink; a dangling link does
not exist. -/
def existsAt (fs : FS) (p : String) : Bool :=
  match fs p with
  | some (Node.symlink t) =>
    match fs t with
    | some (Node.symlink _) => false
    | some _ => true
    | none => false
  | some _ => true
  | none => false

/-- Model of `Path.is_symlink()`. -/
def isSymlinkAt (fs : FS) (p : String) : Bool :=
  match fs p with
  | some (Node.symlink _) => true
  | _ => false

/-- Is a regular file stored at the path? -/
def isFileAt (fs : FS) (p : String) : Bool :=
  match fs p with
  | some (Node.file _) => true
  | _ => false

/-- Errors raised by the filesystem primitives (`OSError` subclasses). -/
inductive FsError where
  | fileExists
  | isADirectory
  | notADirectory
  | notFound
deriving DecidableEq

/-- One step of directory creation along an ancestor chain. -/
def mkdirStep (acc : FS × Option FsError) (q : String) : FS × Option FsError :=
  match acc with
  | (fs', some e) => (fs', some e)
  | (fs', none) =>
    match fs' q with
    | none => (FS.set fs' q Node.dir, none)
    | some Node.dir => (fs', none)
    | some _ => (fs', some FsError.fileExists)

/-- Model of `Path.mkdir(parents=True, exist_ok=True)`: create every missing ancestor
directory; a non-directory node anywhere on the chain raises. -/
def mkdirAll (fs : FS) (p : String) : FS × Option FsError :=
  (pathPrefixes p).foldl mkdirStep (fs, none)

/-- Model of `Path.write_text`: writes through a (single-level) symlink, raises on a
directory. -/
def writeText (fs : FS) (p content : String) : Except FsError FS :=
  match fs p with
  | some Node.dir => .error FsError.isADirectory
  | some (Node.symlink t) =>
    match fs t with
    | some Node.dir => .error FsError.isADirectory
    | some (Node.symlink _) => .error FsError.isADirectory
    | _ => .ok (FS.set fs t (Node.file content))
  | _ => .ok (FS.set fs p (Node.file content))

/-- Model of `Path.unlink(missing_ok=...)`: removes files and symlinks, raises on a
directory, and on a missing path raises unless `missing_ok`. -/
def unlinkAt (fs : FS) (p : String) (missingOk : Bool) : Except FsError FS :=
  match fs p with
  | none => if missingOk then .ok fs else .error FsError.notFound
  | some Node.dir => .error FsError.isADirectory
  | some _ => .ok (FS.del fs p)

/-- Model of `shutil.rmtree`: removes a directory and everything below it; raises on
files and symlinks. -/
def rmtree (fs : FS) (p : String) : Except FsError FS :=
  match fs p with
  | some Node.dir => .ok (fun q => if q = p || isUnder p q then none else fs q)
  | _ => .error FsError.notADirectory

/-! ### Pointwise characterisations of the filesystem primitives -/

theorem existsAt_none {fs : FS} {p : String} (h : fs p = none) :
    existsAt fs p = false := by
  unfold existsAt; rw [h]

theorem existsAt_dir {fs : FS} {p : String} (h : fs p = some Node.dir) :
    existsAt fs p = true := by
  unfold existsAt; rw [h]

theorem existsAt_file {fs : FS} {p : String} {c : String}
    (h : fs p = some (Node.file c)) : existsAt fs p = true := by
  unfold existsAt; rw [h]

theorem isSymlinkAt_none {fs : FS} {p : String} (h : fs p = none) :
    isSymlinkAt fs p = false := by
  unfold isSymlinkAt; rw [h]

theorem unlinkAt_missing {fs : FS} {p : String} (h : fs p = none) :
    unlinkAt fs p true = .ok fs := by
  unfold unlinkAt; rw [h]; rfl

theorem unlinkAt_file {fs : FS} {p : String} {c : String} {missingOk : Bool}
    (h : fs p = some (Node.file c)) :
    unlinkAt fs p missingOk = .ok (FS.del fs p) := by
  unfold unlinkAt; rw [h]

theorem unlinkAt_symlink {fs : FS} {p t : String} {missingOk : Bool}
    (h : fs p = some (Node.symlink t)) :
    unlinkAt fs p missingOk = .ok (FS.del fs p) := by
  unfold unlinkAt; rw [h]

/-- Any non-directory occupant makes `unlink` succeed with a pointwise
deletion. -/
theorem unlinkAt_ok {fs : FS} {p : String}
    (h : fs p ≠ some Node.dir) :
    ∃ fs', unlinkAt fs p true = .ok fs' ∧ ∀ q, fs' q = if q = p then none else fs q := by
  match hp : fs p with
  | none =>
    refine ⟨fs, by unfold unlinkAt; rw [hp]; rfl, fun q => ?_⟩
    by_cases hq : q = p
    · simp [hq, hp]
    · simp [hq]
  | some (Node.file c) =>
    exact ⟨FS.del fs p, by unfold unlinkAt; rw [hp], fun q => rfl⟩
  | some (Node.symlink t) =>
    exact ⟨FS.del fs p, by unfold unlinkAt; rw [hp], fun q => rfl⟩
  | some Node.dir => exact absurd hp h

theorem rmtree_dir {fs : FS} {p : String} (h : fs p = some Node.dir) :
    rmtree fs p = .ok (fun q => if q = p || isUnder p q then none else fs q) := by
  unfold rmtree; rw [h]

theorem writeText_vacant {fs : FS} {p content : String} (h : fs p = none) :
    writeText fs p content = .ok (FS.set fs p (Node.file content)) := by
  unfold writeText; rw [h]

/-- Folding `mkdirStep` over a chain of existing directories changes
nothing. -/
theorem mkdirStep_fold_noop {fs : FS} (L : List String)
    (h : ∀ q ∈ L, fs q = some Node.dir) :
    L.foldl mkdirStep (fs, none) = (fs, none) := by
  induction L with
  | nil => rfl
  | cons q qs ih =>
    have hq := h q (List.mem_cons_self q qs)
    simp only [List.foldl_cons, mkdirStep, hq]
    exact ih (fun r hr => h r (List.mem_cons_of_mem q hr))

/-- The model `mkdirAll` is a no-op when every ancestor already is a directory. -/
theorem mkdirAll_noop {fs : FS} {p : String}
    (h : ∀ q ∈ pathPrefixes p, fs q = some Node.dir) :
    mkdirAll fs p = (fs, none) := by
  unfold mkdirAll
  exact mkdirStep_fold_noop (pathPrefixes p) h

/-- The model `mkdirAll` creates exactly the final directory when all its ancestors
exist and the path itself is vacant. -/
theorem mkdirAll_creates {fs : FS} {p : String} {A : List String}
    (hsplit : pathPrefixes p = A ++ [p])
    (hA : ∀ q ∈ A, fs q = some Node.dir)
    (hp : fs p = none) :
    mkdirAll fs p = (FS.set fs p Node.dir, none) := by
  unfold mkdirAll
  rw [hsplit, List.foldl_append, mkdirStep_fold_noop A hA]
  simp [mkdirStep, hp]

/-! ## `manager.CommandResult` and the external-command oracle -/

/-- Model of `manager.CommandResult`: the normalized outcome of one external
command. -/
structure CommandResult where
  command : List String
  returncode : Option Int
  stdout : String
  stderr : String
  error : Option String
deriving DecidableEq

/-- Derived property `ok`: no internal error and exit code zero. -/
def CommandResult.ok (r : CommandResult) : Bool :=
  r.error.isNone && r.returncode == some 0

/-- Python's `a or b or c` over the captured streams: first non-empty of
stderr, stdout, and the internal error (a missing internal error renders as
the text "None", as an f-string would). -/
def resultMessage (r : CommandResult) : String :=
  if r.stderr ≠ "" then r.stderr
  else if r.stdout ≠ "" then r.stdout
  else
    match r.error with
    | some s => s
    | none => "None"

/-- Outcomes of the three external effects of the lifecycle workflow:
whether `Path.symlink_to` succeeds, and the results of `nginx -t` and of
`systemctl reload nginx`. -/
structure HostingEnv where
  symlinkOk : Bool
  testResult : CommandResult
  reloadResult : CommandResult
deriving DecidableEq

/-- Exceptions surfaced by `create_hosting` / `remove_hosting`. -/
inductive HostingError where
  | valueError (msg : String)
  | fileExistsError (msg : String)
  | runtimeError (msg : String)
  | osError (e : FsError)
deriving DecidableEq

/-! ## Templates and rendering (`hosting.py`) -/

/-- Model of `hosting.DEFAULT_CONFIG_TEMPLATE` (TLS enabled). -/
def DEFAULT_CONFIG_TEMPLATE : String :=
  "server \x7b\x7b\n    listen 80;\n    listen [::]:80;\n\n    server_name {server_name};\n\n    return 301 https://$host$request_uri;\n\x7d\x7d\n\nserver \x7b\x7b\n    listen 443 ssl http2;\n    listen [::]:443 ssl http2;\n\n    server_name {server_name};\n\n    root {root};\n    index index.html index.htm;\n\n    access_log {access_log};\n    error_log {error_log};\n\n    ssl_certificate {ssl_certificate};\n    ssl_certificate_key {ssl_certificate_key};\n\n    location / \x7b\x7b\n        try_files $uri $uri/ =404;\n    \x7d\x7d\n\x7d\x7d\n"

/-- Model of `hosting.DEFAULT_CONFIG_TEMPLATE_NO_SSL` (plain HTTP). -/
def DEFAULT_CONFIG_TEMPLATE_NO_SSL : String :=
  "server \x7b\x7b\n    listen 80;\n    listen [::]:80;\n\n    server_name {server_name};\n\n    root {root};\n    index index.html index.htm;\n\n    access_log {access_log};\n    error_log {error_log};\n\n    location / \x7b\x7b\n        try_files $uri $uri/ =404;\n    \x7d\x7d\n\x7d\x7d\n"

/-- Read a replacement-field name up to the closing brace
(`str.format` field parsing, no format specs are used by the sources). -/
def readFieldName (acc : List Char) : List Char → List Char × List Char
  | [] => (acc.reverse, [])
  | '\x7d' :: rest => (acc.reverse, rest)
  | c :: rest => readFieldName (c :: acc) rest

/-- Substitution lookup for `str.format` keyword arguments. -/
def lookupSub (subs : List (String × String)) (k : String) : String :=
  match subs.find? (fun kv => kv.1 == k) with
  | some kv => kv.2
  | none => ""

/-- Fuel-indexed worker for `str.format`: handles doubled-brace escapes and
named replacement fields.  Every step consumes at least one character, so
`fuel = length` is always enough. -/
def pyFormatAux (subs : List (String × String)) : Nat → List Char → List Char
  | 0, _ => []
  | _ + 1, [] => []
  | fuel + 1, '\x7b' :: '\x7b' :: rest => '\x7b' :: pyFormatAux subs fuel rest
  | fuel + 1, '\x7d' :: '\x7d' :: rest => '\x7d' :: pyFormatAux subs fuel rest
  | fuel + 1, '\x7b' :: rest =>
    let nr := readFieldName [] rest
    (lookupSub subs (String.mk nr.1)).data ++ pyFormatAux subs fuel nr.2
  | fuel + 1, c :: rest => c :: pyFormatAux subs fuel rest

/-- Model of `template.format(...)` for the placeholder set used by the sources. -/
def pyFormat (template : String) (subs : List (String × String)) : String :=
  String.mk (pyFormatAux subs template.data.length template.data)

/-- Model of `" ".join(...)`. -/
def joinSpace : List String → String
  | [] => ""
  | [s] => s
  | s :: rest => s ++ " " ++ joinSpace rest

/-- Model of `hosting._render_config`: fill the template and normalise the trailing
newline (`rstrip() + "\n"`). -/
def _render_config (template : String) (server_names : List String)
    (document_root access_log error_log : String)
    (ssl_certificate ssl_certificate_key : Option String) : String :=
  let rendered := pyFormat template
    [("server_name", joinSpace server_names),
     ("root", document_root),
     ("access_log", access_log),
     ("error_log", error_log),
     ("ssl_certificate", ssl_certificate.getD ""),
     ("ssl_certificate_key", ssl_certificate_key.getD "")]
  pyRstrip rendered ++ "\n"

/-! ## Server-name normalisation and certificate-name selection -/

/-- Input type of the server-name argument: `create_hosting` accepts one
name or a sequence of names. -/
inductive ServerNames where
  | one (s : String)
  | many (l : List String)

/-- Worker for `_normalize_server_names`: strip, drop empties and
duplicates, preserve first-seen order (`seen` plays the role of the set). -/
def normalizeAux (seen : List String) : List String → List String
  | [] => []
  | c :: rest =>
    let n := pyStrip c
    if n = "" || seen.contains n then normalizeAux seen rest
    else n :: normalizeAux (n :: seen) rest

/-- Model of `hosting._normalize_server_names`. -/
def _normalize_server_names : ServerNames → List String
  | .one s => normalizeAux [] [s]
  | .many l => normalizeAux [] l

/-- Model of `candidate.lstrip("*.")`: drop every leading `'*'` or `'.'`. -/
def lstripStarDot (s : String) : String :=
  String.mk (s.data.dropWhile (fun c => c = '*' || c = '.'))

/-- Model of `.replace("*", "").replace("/", "")`: delete every `'*'` and `'/'`. -/
def removeStarSlash (s : String) : String :=
  String.mk (s.data.filter (fun c => !(c = '*' || c = '/')))

/-- Model of `hosting._select_certificate_name`. -/
def _select_certificate_name (server_names : List String) : String :=
  match server_names.find? (fun c => lstripStarDot c ≠ "") with
  | some c => removeStarSlash (lstripStarDot c)
  | none =>
    let fallback := server_names.headD "default"
    let sanitized := removeStarSlash fallback
    if sanitized = "" then "default" else sanitized

/-- Model of `hosting._default_certificate_paths`. -/
def _default_certificate_paths (server_names : List String) : String × String :=
  let primary := _select_certificate_name server_names
  let certificate_directory := pathJoin "/etc/letsencrypt/live" primary
  (pathJoin certificate_directory "fullchain.pem",
   pathJoin certificate_directory "privkey.pem")

/-! ## Site path computation (lines 147–154 and 255–261 of `hosting.py`,
which are textually identical in the two operations) -/

/-- The five artefact paths of a site. -/
structure SitePaths where
  sites_available_path : String
  sites_enabled_path : String
  document_root : String
  access_log_path : String
  error_log_path : String
deriving DecidableEq

/-- Compute the artefact paths exactly as `create_hosting` and
`remove_hosting` do. -/
def computeSitePaths (nginx_root web_root_base log_directory site_name : String)
    (config_filename : Option String) : SitePaths :=
  let config_basename := config_filename.getD (site_name ++ ".conf")
  { sites_available_path := pathJoin (pathJoin nginx_root "sites-available") config_basename
    sites_enabled_path := pathJoin (pathJoin nginx_root "sites-enabled") config_basename
    document_root := pathJoin web_root_base site_name
    access_log_path := pathJoin log_directory (site_name ++ ".access.log")
    error_log_path := pathJoin log_directory (site_name ++ ".error.log") }

/-! ## `hosting.create_hosting` -/

/-- Lines 193–219 of `hosting.py`: symlink creation with its first rollback
point, the configuration test with its second rollback point, and the
reload.  Named separately so the rollback analysis can be stated once. -/
def activateSite (env : HostingEnv) (fs5 : FS)
    (sites_available_path sites_enabled_path : String) :
    FS × Except HostingError CommandResult :=
  if env.symlinkOk then
    let fs6 := FS.set fs5 sites_enabled_path (Node.symlink sites_available_path)
    if env.testResult.ok then
      if env.reloadResult.ok then (fs6, .ok env.reloadResult)
      else
        (fs6, .error (.runtimeError
          ("failed to reload nginx: " ++ resultMessage env.reloadResult)))
    else
      -- second rollback point: remove the enabled symlink, keep the file
      match unlinkAt fs6 sites_enabled_path true with
      | .error e => (fs6, .error (.osError e))
      | .ok fs7 =>
        (fs7, .error (.runtimeError
          ("nginx configuration test failed: " ++ resultMessage env.testResult)))
  else
    -- first rollback point: delete the just-written available-config file
    match unlinkAt fs5 sites_available_path true with
    | .error e => (fs5, .error (.osError e))
    | .ok fs6 => (fs6, .error (.runtimeError "failed to enable site"))

/-- Lines 187–219 of `hosting.py`: write the rendered configuration, clear
any stale entry at the enabled path, then activate.  The stale `unlink()`
has no `missing_ok` and sits outside the `try`, so a directory occupant
propagates as an OSError without any rollback of the just-written file. -/
def writeAndActivate (env : HostingEnv) (fs3 : FS)
    (sites_available_path sites_enabled_path rendered_config : String) :
    FS × Except HostingError CommandResult :=
  match writeText fs3 sites_available_path rendered_config with
  | .error e => (fs3, .error (.osError e))
  | .ok fs4 =>
  match (if existsAt fs4 sites_enabled_path || isSymlinkAt fs4 sites_enabled_path then
          unlinkAt fs4 sites_enabled_path false
         else .ok fs4) with
  | .error e => (fs4, .error (.osError e))
  | .ok fs5 =>
  activateSite env fs5 sites_available_path sites_enabled_path


/-- Model of `hosting.create_hosting`, lines 141–219.  The returned pair carries the
filesystem state at the moment control returns to the caller (also when an
exception propagates) together with the result or the raised exception.
`use_sudo` / `nginx_binary` / `controller` only shape the oracle commands
and are folded into `HostingEnv`. -/
def create_hosting (env : HostingEnv) (fs : FS) (site_name : String)
    (server_names : ServerNames)
    (nginx_root web_root_base log_directory : String)
    (config_filename : Option String) (template : Option String)
    (isCert : Bool) : FS × Except HostingError CommandResult :=
  match _validate_site_name site_name with
  | .error m => (fs, .error (.valueError m))
  | .ok _ =>
  let normalized_server_names := _normalize_server_names server_names
  if normalized_server_names = [] then
    (fs, .error (.valueError "server_names must contain at least one non-empty name"))
  else
  let P := computeSitePaths nginx_root web_root_base log_directory site_name config_filename
  if existsAt fs P.sites_available_path then
    (fs, .error (.fileExistsError ("configuration already exists: " ++ P.sites_available_path)))
  else
  match mkdirAll fs (parentOf P.sites_available_path) with
  | (fs1, some e) => (fs1, .error (.osError e))
  | (fs1, none) =>
  match mkdirAll fs1 (parentOf P.sites_enabled_path) with
  | (fs2, some e) => (fs2, .error (.osError e))
  | (fs2, none) =>
  match mkdirAll fs2 P.document_root with
  | (fs3, some e) => (fs3, .error (.osError e))
  | (fs3, none) =>
  let certificate_paths : Option (String × String) :=
    if isCert then some (_default_certificate_paths normalized_server_names) else none
  let applied_template :=
    template.getD (if isCert then DEFAULT_CONFIG_TEMPLATE else DEFAULT_CONFIG_TEMPLATE_NO_SSL)
  let rendered_config := _render_config applied_template normalized_server_names
    P.document_root P.access_log_path P.error_log_path
    (certificate_paths.map Prod.fst) (certificate_paths.map Prod.snd)
  writeAndActivate env fs3 P.sites_available_path P.sites_enabled_path rendered_config

/-! ## `hosting.remove_hosting` -/

/-- Model of `hosting.remove_hosting`, lines 253–291: best-effort deletion of the
five artefacts, then configuration test and reload. -/
def remove_hosting (env : HostingEnv) (fs : FS) (site_name : String)
    (nginx_root web_root_base log_directory : String)
    (config_filename : Option String) : FS × Except HostingError CommandResult :=
  match _validate_site_name site_name with
  | .error m => (fs, .error (.valueError m))
  | .ok _ =>
  let P := computeSitePaths nginx_root web_root_base log_directory site_name config_filename
  match unlinkAt fs P.sites_enabled_path true with
  | .error e => (fs, .error (.osError e))
  | .ok fs1 =>
  match unlinkAt fs1 P.sites_available_path true with
  | .error e => (fs1, .error (.osError e))
  | .ok fs2 =>
  match (if existsAt fs2 P.document_root then rmtree fs2 P.document_root else .ok fs2) with
  | .error e => (fs2, .error (.osError e))
  | .ok fs3 =>
  match unlinkAt fs3 P.access_log_path true with
  | .error e => (fs3, .error (.osError e))
  | .ok fs4 =>
  match unlinkAt fs4 P.error_log_path true with
  | .error e => (fs4, .error (.osError e))
  | .ok fs5 =>
  if env.testResult.ok then
    if env.reloadResult.ok then (fs5, .ok env.reloadResult)
    else
      (fs5, .error (.runtimeError
        ("failed to reload nginx after removal: " ++ resultMessage env.reloadResult)))
  else
    (fs5, .error (.runtimeError
      ("nginx configuration test failed after removal: " ++ resultMessage env.testResult)))

/-! ## `manager.py`: certificate inspection

Configuration and certificate files live in a simpler map: each path either
holds decodable text, holds undecodable bytes (reading raises
`UnicodeDecodeError`), or is absent.  The certificate decoder
(`ssl._ssl._test_decode_cert` plus `_parse_openssl_datetime`) is an oracle:
per §4.2 of the design notes the exact decode mechanism is not part of the
contract, only its outcome.
-/

/-- Content of a file as seen by `Path.read_text`. -/
inductive FileData where
  | text (content : String)
  | binary
deriving DecidableEq

/-- Filesystem as seen by the certificate inspector. -/
def ConfigFS : Type := String → Option FileData

/-- Outcome of decoding one certificate file: the decoder raised
`FileNotFoundError`, raised some other exception with a message, or
produced the (already-parsed) validity window. -/
inductive DecodeOutcome where
  | fileNotFound
  | failure (msg : String)
  | decoded (notBefore notAfter : Option Int)
deriving DecidableEq

/-- Model of `manager.CertificateStatus` (timestamps abstracted to integers; the
field `exists` of the dataclass is spelled `exists_`). -/
structure CertificateStatus where
  site : String
  certificate : Option String
  exists_ : Bool
  not_before : Option Int
  not_after : Option Int
  days_remaining : Option Int
  error : Option String
deriving DecidableEq

/-- Model of `str.splitlines()` restricted to the `\n`, `\r\n` and `\r` terminators:
split at terminators, no empty trailing line. -/
def splitLinesPy : List Char → List (List Char) :=
  go []
where
  go (cur : List Char) : List Char → List (List Char)
    | [] => if cur.isEmpty then [] else [cur.reverse]
    | '\r' :: '\n' :: rest => cur.reverse :: go [] rest
    | '\n' :: rest => cur.reverse :: go [] rest
    | '\r' :: rest => cur.reverse :: go [] rest
    | c :: rest => go (c :: cur) rest

/-- Model of `line.split("#", 1)[0]`: the text before the first `'#'`. -/
def beforeHash : List Char → List Char
  | [] => []
  | c :: rest => if c = '#' then [] else c :: beforeHash rest

/-- The literal directive marker `"ssl_certificate "` (marker plus one
space). -/
def sslMarker : List Char := "ssl_certificate ".data

/-- The loop body of `_extract_certificate_paths` for one line. -/
def extractLine (l : List Char) : Option (List Char) :=
  let stripped := trimChars (beforeHash l)
  if stripped.isEmpty then none
  else if List.isPrefixOf sslMarker stripped then
    let value := trimChars (stripped.drop sslMarker.length)
    if value.getLast? = some ';' then some (trimChars value.dropLast)
    else some value
  else none

/-- Model of `manager._extract_certificate_paths` on the content of one config file
(`Path(value)` is kept as the value string). -/
def _extract_certificate_paths (fd : FileData) : List String :=
  match fd with
  | .binary => []
  | .text content =>
    (splitLinesPy content.data).filterMap (fun l => (extractLine l).map String.mk)

/-- Model of `manager._build_certificate_status`. -/
def _build_certificate_status (decode : String → DecodeOutcome) (now : Int)
    (cfs : ConfigFS) (site_name cert_path : String) : CertificateStatus :=
  match cfs cert_path with
  | none =>
    ⟨site_name, some cert_path, false, none, none, none,
     some "certificate file does not exist"⟩
  | some _ =>
    match decode cert_path with
    | .fileNotFound =>
      ⟨site_name, some cert_path, false, none, none, none,
       some "certificate file does not exist"⟩
    | .failure msg =>
      ⟨site_name, some cert_path, true, none, none, none, some msg⟩
    | .decoded nb na =>
      ⟨site_name, some cert_path, true, nb, na,
       na.map (fun t => Int.fdiv (t - now) 86400), none⟩

/-- Model of `manager.check_certificate_status` on an explicit list of config
paths. -/
def check_certificate_status (decode : String → DecodeOutcome) (now : Int)
    (cfs : ConfigFS) (configs : List String) : List CertificateStatus :=
  configs.flatMap (fun config_path =>
    let site_name := pythonPathName config_path
    match cfs config_path with
    | none =>
      [⟨site_name, none, false, none, none, none,
        some "configuration path does not exist"⟩]
    | some fd =>
      let certificate_paths := _extract_certificate_paths fd
      if certificate_paths = [] then
        [⟨site_name, none, false, none, none, none,
          some "no ssl_certificate directive found"⟩]
      else
        certificate_paths.map (_build_certificate_status decode now cfs site_name))

/-! ## Claim-side characterisation of directive extraction (C6) -/

/-- The claim's line predicate: after removing everything from the first
`'#'` and trimming whitespace, the line begins with the literal prefix
`"ssl_certificate "`. -/
def specIsDirective (l : List Char) : Bool :=
  List.isPrefixOf sslMarker (trimChars (l.takeWhile (fun c => c != '#')))

/-- The claim's extracted value: the text after the prefix, trimmed, with
one optional trailing `';'` removed (and re-trimmed, as the code does and
the claim's own example requires). -/
def specDirectiveValue (l : List Char) : String :=
  let s := trimChars (l.takeWhile (fun c => c != '#'))
  let v := trimChars (s.drop sslMarker.length)
  if v.getLast? = some ';' then String.mk (trimChars v.dropLast)
  else String.mk v

theorem beforeHash_eq_takeWhile (l : List Char) :
    beforeHash l = l.takeWhile (fun c => c != '#') := by
  induction l with
  | nil => rfl
  | cons c rest ih =>
    by_cases h : c = '#'
    · subst h; simp [beforeHash, List.takeWhile]
    · have hb : (c != '#') = true := by simpa using h
      simp [beforeHash, List.takeWhile, h, hb, ih]

theorem extractLine_eq_spec (l : List Char) :
    (extractLine l).map String.mk =
      if specIsDirective l then some (specDirectiveValue l) else none := by
  unfold extractLine specIsDirective specDirectiveValue
  rw [← beforeHash_eq_takeWhile]
  by_cases hempty : (trimChars (beforeHash l)).isEmpty
  · have hpre : List.isPrefixOf sslMarker (trimChars (beforeHash l)) = false := by
      have : trimChars (beforeHash l) = [] := by simpa using hempty
      rw [this]
      rfl
    simp [hempty, hpre]
  · by_cases hpre : List.isPrefixOf sslMarker (trimChars (beforeHash l))
    · by_cases hsemi :
        (trimChars ((trimChars (beforeHash l)).drop sslMarker.length)).getLast? = some ';'
      · simp [hempty, hpre, hsemi]
      · simp [hempty, hpre, hsemi]
    · simp [hempty, hpre]

theorem filterMap_directives (L : List (List Char)) :
    L.filterMap (fun l => (extractLine l).map String.mk) =
      (L.filter specIsDirective).map specDirectiveValue := by
  induction L with
  | nil => rfl
  | cons l rest ih =>
    by_cases h : specIsDirective l
    · have he : (extractLine l).map String.mk = some (specDirectiveValue l) := by
        rw [extractLine_eq_spec, if_pos h]
      simp [List.filterMap_cons, List.filter_cons, he, h, ih]
    · have he : (extractLine l).map String.mk = none := by
        rw [extractLine_eq_spec, if_neg h]
      have hb : specIsDirective l = false := by simpa using h
      simp [List.filterMap_cons, List.filter_cons, he, hb, ih]

/-- The claim's example file. -/
def exampleConfig : String :=
  "ssl_certificate /a.pem;\nssl_certificate   /b.pem ;  # note\nssl_certificate /c.pem\nserver_name example.com;\n"

/-- C6: `extractCertificatePaths` returns, in file order and without
deduplication, one path per line that — after removing everything from the
first `'#'` and trimming — begins with the literal prefix
`"ssl_certificate "`; each returned path is the text after that prefix,
trimmed, with one optional trailing `';'` removed; the claim's example file
yields exactly `[/a.pem, /b.pem, /c.pem]` in order, and an undecodable file
yields the empty list. -/
theorem extract_certificate_paths_spec :
    (∀ content : String,
      _extract_certificate_paths (.text content) =
        ((splitLinesPy content.data).filter specIsDirective).map specDirectiveValue)
    ∧ _extract_certificate_paths (.text exampleConfig) = ["/a.pem", "/b.pem", "/c.pem"]
    ∧ _extract_certificate_paths .binary = [] := by
  refine ⟨fun content => ?_, by decide, rfl⟩
  unfold _extract_certificate_paths
  exact filterMap_directives (splitLinesPy content.data)

/-- C5: `checkCertificateStatus` emits, per config in input order: one
"configuration path does not exist" status for a missing config; one
"no ssl_certificate directive found" status (exists=false, no certificate
path) for an existing config without directives; and one
`buildCertificateStatus` result per extracted path, in order, otherwise;
the overall result is the concatenation of these contributions. -/
theorem check_certificate_status_spec :
    (∀ (decode : String → DecodeOutcome) (now : Int) (cfs : ConfigFS)
       (c : String) (cs : List String),
      check_certificate_status decode now cfs (c :: cs) =
        check_certificate_status decode now cfs [c] ++
          check_certificate_status decode now cfs cs)
    ∧ (∀ (decode : String → DecodeOutcome) (now : Int) (cfs : ConfigFS)
        (c : String), cfs c = none →
      check_certificate_status decode now cfs [c] =
        [⟨pythonPathName c, none, false, none, none, none,
          some "configuration path does not exist"⟩])
    ∧ (∀ (decode : String → DecodeOutcome) (now : Int) (cfs : ConfigFS)
        (c : String) (fd : FileData), cfs c = some fd →
        _extract_certificate_paths fd = [] →
      check_certificate_status decode now cfs [c] =
        [⟨pythonPathName c, none, false, none, none, none,
          some "no ssl_certificate directive found"⟩])
    ∧ (∀ (decode : String → DecodeOutcome) (now : Int) (cfs : ConfigFS)
        (c : String) (fd : FileData), cfs c = some fd →
        _extract_certificate_paths fd ≠ [] →
      check_certificate_status decode now cfs [c] =
        (_extract_certificate_paths fd).map
          (_build_certificate_status decode now cfs (pythonPathName c))) := by
  refine ⟨fun decode now cfs c cs => ?_, fun decode now cfs c h => ?_,
          fun decode now cfs c fd h hempty => ?_, fun decode now cfs c fd h hne => ?_⟩
  · simp [check_certificate_status]
  · simp [check_certificate_status, h]
  · simp [check_certificate_status, h, hempty]
  · simp [check_certificate_status, h, hne]

/-! Concrete fixtures shared by the witnesses below. -/

/-- A successful `nginx -t` result. -/
def okTest : CommandResult := ⟨["nginx", "-t"], some 0, "", "", none⟩

/-- A successful `systemctl reload nginx` result. -/
def okReload : CommandResult := ⟨["systemctl", "reload", "nginx"], some 0, "", "", none⟩

/-- A failing `nginx -t` result. -/
def failTest : CommandResult := ⟨["nginx", "-t"], some 1, "", "test broke", none⟩

/-- A failing reload result. -/
def failReload : CommandResult := ⟨["systemctl", "reload", "nginx"], some 1, "", "reload broke", none⟩

/-- Environment in which every external effect succeeds. -/
def envOk : HostingEnv := ⟨true, okTest, okReload⟩

/-- A filesystem with the standard directory skeleton and nothing else. -/
def baseFS : FS := fun p =>
  if p ∈ ["/etc", "/etc/nginx", "/etc/nginx/sites-available",
          "/etc/nginx/sites-enabled", "/var", "/var/www",
          "/var/log", "/var/log/nginx"] then some Node.dir else none

/-- Configuration files seen by the certificate-inspector witnesses. -/
def certCfs : ConfigFS := fun p =>
  if p = "/etc/nginx/sites-enabled/plain.conf" then
    some (.text "server_name example.com;\n")
  else if p = "/etc/nginx/sites-enabled/tls.conf" then
    some (.text "ssl_certificate /a.pem;\nssl_certificate /b.pem;\n")
  else if p = "/a.pem" then some .binary
  else if p = "/b.pem" then some .binary
  else none

/-- Certificate decoder used by the witnesses. -/
def certDecode : String → DecodeOutcome := fun p =>
  if p = "/a.pem" then .failure "bad cert"
  else if p = "/b.pem" then .decoded (some 0) (some 864000)
  else .fileNotFound

theorem check_certificate_status_spec_witness :
    (check_certificate_status certDecode 0 certCfs
        ["/etc/nginx/sites-enabled/missing.conf", "/etc/nginx/sites-enabled/tls.conf"] =
      check_certificate_status certDecode 0 certCfs ["/etc/nginx/sites-enabled/missing.conf"] ++
        check_certificate_status certDecode 0 certCfs ["/etc/nginx/sites-enabled/tls.conf"])
    ∧ (check_certificate_status certDecode 0 certCfs ["/etc/nginx/sites-enabled/missing.conf"] =
        [⟨pythonPathName "/etc/nginx/sites-enabled/missing.conf", none, false, none, none, none,
          some "configuration path does not exist"⟩])
    ∧ (check_certificate_status certDecode 0 certCfs ["/etc/nginx/sites-enabled/plain.conf"] =
        [⟨pythonPathName "/etc/nginx/sites-enabled/plain.conf", none, false, none, none, none,
          some "no ssl_certificate directive found"⟩])
    ∧ (check_certificate_status certDecode 0 certCfs ["/etc/nginx/sites-enabled/tls.conf"] =
        (_extract_certificate_paths (.text "ssl_certificate /a.pem;\nssl_certificate /b.pem;\n")).map
          (_build_certificate_status certDecode 0 certCfs
            (pythonPathName "/etc/nginx/sites-enabled/tls.conf"))) :=
  ⟨check_certificate_status_spec.1 certDecode 0 certCfs
      "/etc/nginx/sites-enabled/missing.conf" ["/etc/nginx/sites-enabled/tls.conf"],
   check_certificate_status_spec.2.1 certDecode 0 certCfs
      "/etc/nginx/sites-enabled/missing.conf" (by decide),
   check_certificate_status_spec.2.2.1 certDecode 0 certCfs
      "/etc/nginx/sites-enabled/plain.conf" (.text "server_name example.com;\n")
      (by decide) (by decide),
   check_certificate_status_spec.2.2.2 certDecode 0 certCfs
      "/etc/nginx/sites-enabled/tls.conf"
      (.text "ssl_certificate /a.pem;\nssl_certificate /b.pem;\n")
      (by decide) (by decide)⟩

/-- C7: for a certificate path present on disk, a decode error yields
exists=true with absent timestamps and the decoder's message; exists=false
is returned exactly when the certificate file does not exist.  The single
hypothesis states sequential consistency of the decoder with the
filesystem: the decoder reports `FileNotFoundError` only for absent files
(there is no concurrent deletion in the model). -/
theorem build_certificate_status_spec :
    ∀ (decode : String → DecodeOutcome) (now : Int) (cfs : ConfigFS)
      (site cert_path : String),
      (decode cert_path = .fileNotFound → cfs cert_path = none) →
      ((∀ msg, cfs cert_path ≠ none → decode cert_path = .failure msg →
          _build_certificate_status decode now cfs site cert_path =
            ⟨site, some cert_path, true, none, none, none, some msg⟩)
       ∧ ((_build_certificate_status decode now cfs site cert_path).exists_ = false
            ↔ cfs cert_path = none)
       ∧ (cfs cert_path = none →
          _build_certificate_status decode now cfs site cert_path =
            ⟨site, some cert_path, false, none, none, none,
             some "certificate file does not exist"⟩)) := by
  intro decode now cfs site cert_path hcons
  refine ⟨fun msg hne hdec => ?_, ?_, fun hnone => ?_⟩
  · match hc : cfs cert_path with
    | none => exact absurd hc hne
    | some fd => simp [_build_certificate_status, hc, hdec]
  · constructor
    · intro hfalse
      match hc : cfs cert_path with
      | none => rfl
      | some fd =>
        match hd : decode cert_path with
        | .fileNotFound => exact (by simpa [hc] using hcons hd)
        | .failure msg => simp [_build_certificate_status, hc, hd] at hfalse
        | .decoded nb na => simp [_build_certificate_status, hc, hd] at hfalse
    · intro hnone
      simp [_build_certificate_status, hnone]
  · simp [_build_certificate_status, hnone]

theorem build_certificate_status_spec_witness :
    (_build_certificate_status certDecode 0 certCfs "tls.conf" "/a.pem" =
      ⟨"tls.conf", some "/a.pem", true, none, none, none, some "bad cert"⟩)
    ∧ ((_build_certificate_status certDecode 0 certCfs "tls.conf" "/missing.pem").exists_ = false
        ↔ certCfs "/missing.pem" = none)
    ∧ (_build_certificate_status certDecode 0 certCfs "tls.conf" "/missing.pem" =
      ⟨"tls.conf", some "/missing.pem", false, none, none, none,
       some "certificate file does not exist"⟩) :=
  ⟨(build_certificate_status_spec certDecode 0 certCfs "tls.conf" "/a.pem"
      (fun h => absurd h (by decide))).1 "bad cert" (by decide) (by decide),
   (build_certificate_status_spec certDecode 0 certCfs "tls.conf" "/missing.pem"
      (fun _ => by decide)).2.1,
   (build_certificate_status_spec certDecode 0 certCfs "tls.conf" "/missing.pem"
      (fun _ => by decide)).2.2 (by decide)⟩

/-- C8 counterexample: for the server-name list `["*."]` every name
sanitizes to empty under the claim's stripping (dropping leading `'*'` and
`'.'` characters), yet the selected certificate name is `"."` — the
fallback re-sanitizes the first raw name by deleting only `'*'` and `'/'`,
which leaves the dots — so the literal `"default"` is not used. -/
theorem select_certificate_name_cex :
    (∀ c ∈ ["*."], lstripStarDot c = "")
    ∧ _select_certificate_name ["*."] = "."
    ∧ ("." : String) ≠ "default"
    ∧ _default_certificate_paths ["*."] =
        ("/etc/letsencrypt/live/./fullchain.pem", "/etc/letsencrypt/live/./privkey.pem") := by
  refine ⟨by decide, by decide, by decide, by decide⟩

/-- C8 (amended): when TLS is enabled and no caller template supplies
certificate paths, the certificate directory name is the first server name
that is non-empty after dropping leading `'*'`/`'.'` characters, with all
`'*'` and `'/'` characters then removed; when every server name strips to
empty, the fallback is the first server name with `'*'` and `'/'` removed,
and the literal `"default"` is used only when that fallback is itself empty
(or the list is empty); the derived paths are
`<certs-root>/<name>/fullchain.pem` and `<certs-root>/<name>/privkey.pem`. -/
theorem select_certificate_name_spec :
    (∀ (names : List String) (c : String),
       names.find? (fun x => !decide (lstripStarDot x = "")) = some c →
       _select_certificate_name names = removeStarSlash (lstripStarDot c))
    ∧ (∀ names : List String, (∀ c ∈ names, lstripStarDot c = "") →
       _select_certificate_name names =
         (if removeStarSlash (names.headD "default") = "" then "default"
          else removeStarSlash (names.headD "default")))
    ∧ (∀ names : List String,
       _default_certificate_paths names =
         (pathJoin (pathJoin "/etc/letsencrypt/live" (_select_certificate_name names)) "fullchain.pem",
          pathJoin (pathJoin "/etc/letsencrypt/live" (_select_certificate_name names)) "privkey.pem")) := by
  refine ⟨fun names c h => ?_, fun names h => ?_, fun names => rfl⟩
  · simp [_select_certificate_name, h]
  · have hnone : names.find? (fun x => !decide (lstripStarDot x = "")) = none := by
      apply List.find?_eq_none.mpr
      intro x hx
      simp [h x hx]
    simp [_select_certificate_name, hnone]

theorem select_certificate_name_spec_witness :
    (_select_certificate_name ["*.example.com", "www.example.com"] = "example.com")
    ∧ (_select_certificate_name ["*.", "..."] =
        (if removeStarSlash ((["*.", "..."] : List String).headD "default") = "" then "default"
         else removeStarSlash ((["*.", "..."] : List String).headD "default"))) :=
  ⟨by
    have := select_certificate_name_spec.1 ["*.example.com", "www.example.com"]
      "*.example.com" (by decide)
    simpa using this,
   select_certificate_name_spec.2.1 ["*.", "..."] (by decide)⟩

/-- C9: validation looks only at the stripped name, so a name that is
non-empty after trimming but carries surrounding whitespace is accepted,
while every filesystem path is computed from the original untrimmed string:
`" blog "` yields config basename `" blog .conf"` and document root
`"/var/www/ blog "`, and a create/remove run really does write and delete
at those whitespace-carrying paths. -/
theorem untrimmed_site_name_paths :
    (∀ s : String, _validate_site_name s = _validate_site_name (pyStrip s))
    ∧ _validate_site_name " blog " = .ok ()
    ∧ (computeSitePaths "/etc/nginx" "/var/www" "/var/log/nginx" " blog " none).sites_available_path
        = "/etc/nginx/sites-available/ blog .conf"
    ∧ (computeSitePaths "/etc/nginx" "/var/www" "/var/log/nginx" " blog " none).sites_enabled_path
        = "/etc/nginx/sites-enabled/ blog .conf"
    ∧ (computeSitePaths "/etc/nginx" "/var/www" "/var/log/nginx" " blog " none).document_root
        = "/var/www/ blog "
    ∧ (computeSitePaths "/etc/nginx" "/var/www" "/var/log/nginx" " blog " none).access_log_path
        = "/var/log/nginx/ blog .access.log"
    ∧ isFileAt (create_hosting envOk baseFS " blog " (.many ["blog.example.com"])
        "/etc/nginx" "/var/www" "/var/log/nginx" none none false).1
        "/etc/nginx/sites-available/ blog .conf" = true
    ∧ (create_hosting envOk baseFS " blog " (.many ["blog.example.com"])
        "/etc/nginx" "/var/www" "/var/log/nginx" none none false).1
        "/var/www/ blog " = some Node.dir
    ∧ (remove_hosting envOk
        (create_hosting envOk baseFS " blog " (.many ["blog.example.com"])
          "/etc/nginx" "/var/www" "/var/log/nginx" none none false).1
        " blog " "/etc/nginx" "/var/www" "/var/log/nginx" none).1
        "/etc/nginx/sites-available/ blog .conf" = none := by
  refine ⟨validate_strip, by decide, by decide, by decide, by decide, by decide,
    by decide, by decide, by decide⟩

/-- POSIX resolution of `.` and `..` segments in an absolute path string
(used only to state where an escaping path actually lands). -/
def resolvePath (p : String) : String :=
  let comps := (splitSlash p.data).filter (fun g => !g.isEmpty && g ≠ ['.'])
  let resolved := comps.foldl
    (fun acc g => if g = ['.', '.'] then acc.dropLast else acc ++ [g]) []
  String.mk ('/' :: joinSlash resolved)

/-- C10: the `config_filename` override is never validated for path
separators: with `config_filename = "../../x.conf"` the computed
available/enabled paths resolve to `/etc/x.conf`, outside the
`sites-available` and `sites-enabled` directories, and `create_hosting`
writes and links — and `remove_hosting` deletes — at those escaped
locations without raising any validation error. -/
theorem config_filename_escape :
    (computeSitePaths "/etc/nginx" "/var/www" "/var/log/nginx" "blog"
        (some "../../x.conf")).sites_available_path
      = "/etc/nginx/sites-available/../../x.conf"
    ∧ resolvePath "/etc/nginx/sites-available/../../x.conf" = "/etc/x.conf"
    ∧ resolvePath "/etc/nginx/sites-enabled/../../x.conf" = "/etc/x.conf"
    ∧ isUnder "/etc/nginx/sites-available" (resolvePath "/etc/nginx/sites-available/../../x.conf") = false
    ∧ isUnder "/etc/nginx/sites-enabled" (resolvePath "/etc/nginx/sites-enabled/../../x.conf") = false
    ∧ (create_hosting envOk baseFS "blog" (.many ["blog.example.com"])
        "/etc/nginx" "/var/www" "/var/log/nginx" (some "../../x.conf") none false).2
      = .ok okReload
    ∧ isFileAt (create_hosting envOk baseFS "blog" (.many ["blog.example.com"])
        "/etc/nginx" "/var/www" "/var/log/nginx" (some "../../x.conf") none false).1
        "/etc/nginx/sites-available/../../x.conf" = true
    ∧ (create_hosting envOk baseFS "blog" (.many ["blog.example.com"])
        "/etc/nginx" "/var/www" "/var/log/nginx" (some "../../x.conf") none false).1
        "/etc/nginx/sites-enabled/../../x.conf"
      = some (Node.symlink "/etc/nginx/sites-available/../../x.conf")
    ∧ (remove_hosting envOk
        (create_hosting envOk baseFS "blog" (.many ["blog.example.com"])
          "/etc/nginx" "/var/www" "/var/log/nginx" (some "../../x.conf") none false).1
        "blog" "/etc/nginx" "/var/www" "/var/log/nginx" (some "../../x.conf")).2
      = .ok okReload
    ∧ (remove_hosting envOk
        (create_hosting envOk baseFS "blog" (.many ["blog.example.com"])
          "/etc/nginx" "/var/www" "/var/log/nginx" (some "../../x.conf") none false).1
        "blog" "/etc/nginx" "/var/www" "/var/log/nginx" (some "../../x.conf")).1
        "/etc/nginx/sites-available/../../x.conf" = none := by
  refine ⟨by decide, by decide, by decide, by decide, by decide, by decide, by decide,
    by decide, by decide, by decide⟩

/-! ## Validation-path lemmas for the lifecycle operations -/

theorem create_validation_error {env : HostingEnv} {fs : FS} {site : String}
    {sns : ServerNames} {nroot wroot logd : String} {cfg tmpl : Option String}
    {isCert : Bool} {m : String}
    (hv : _validate_site_name site = .error m) :
    create_hosting env fs site sns nroot wroot logd cfg tmpl isCert =
      (fs, .error (.valueError m)) := by
  unfold create_hosting; rw [hv]

theorem remove_validation_error {env : HostingEnv} {fs : FS} {site : String}
    {nroot wroot logd : String} {cfg : Option String} {m : String}
    (hv : _validate_site_name site = .error m) :
    remove_hosting env fs site nroot wroot logd cfg =
      (fs, .error (.valueError m)) := by
  unfold remove_hosting; rw [hv]

/-- C3: `create_hosting` and `remove_hosting` raise a validation error with
the filesystem untouched when the site name is empty after trimming or
contains a path separator; `create_hosting` likewise raises before any
mutation when the normalized server-name list is empty, and raises a
collision error — leaving the filesystem, including the existing file,
untouched — when the available-config file already exists. -/
theorem rejects_before_mutation :
    ∀ (env : HostingEnv) (fs : FS) (site_name : String) (sns : ServerNames)
      (nroot wroot logd : String) (cfg tmpl : Option String) (isCert : Bool),
      ((pyStrip site_name = "" ∨ '/' ∈ site_name.data) →
        ∃ m, create_hosting env fs site_name sns nroot wroot logd cfg tmpl isCert =
               (fs, .error (.valueError m))
           ∧ remove_hosting env fs site_name nroot wroot logd cfg =
               (fs, .error (.valueError m)))
      ∧ (_validate_site_name site_name = .ok () →
         _normalize_server_names sns = [] →
         create_hosting env fs site_name sns nroot wroot logd cfg tmpl isCert =
           (fs, .error (.valueError "server_names must contain at least one non-empty name")))
      ∧ (_validate_site_name site_name = .ok () →
         _normalize_server_names sns ≠ [] →
         existsAt fs (computeSitePaths nroot wroot logd site_name cfg).sites_available_path = true →
         create_hosting env fs site_name sns nroot wroot logd cfg tmpl isCert =
           (fs, .error (.fileExistsError ("configuration already exists: " ++
             (computeSitePaths nroot wroot logd site_name cfg).sites_available_path)))) := by
  intro env fs site_name sns nroot wroot logd cfg tmpl isCert
  refine ⟨fun h => ?_, fun hv hn => ?_, fun hv hn hex => ?_⟩
  · rcases h with he | hs
    · exact ⟨_, create_validation_error (validate_empty site_name he),
             remove_validation_error (validate_empty site_name he)⟩
    · have hs2 : '/' ∈ (pyStrip site_name).data :=
        mem_pyStrip site_name '/' (by decide) hs
      exact ⟨_, create_validation_error (validate_slash site_name hs2),
             remove_validation_error (validate_slash site_name hs2)⟩
  · unfold create_hosting
    rw [hv]
    simp [hn]
  · unfold create_hosting
    rw [hv]
    simp [hn, hex]

/-- Filesystem on which `blog.conf` already exists in `sites-available`. -/
def collideFS : FS := fun p =>
  if p = "/etc/nginx/sites-available/blog.conf" then some (.file "old config")
  else baseFS p

theorem rejects_before_mutation_witness :
    (∃ m, create_hosting envOk baseFS "a/b" (.many ["e.com"])
            "/etc/nginx" "/var/www" "/var/log/nginx" none none true =
            (baseFS, .error (.valueError m))
        ∧ remove_hosting envOk baseFS "a/b" "/etc/nginx" "/var/www" "/var/log/nginx" none =
            (baseFS, .error (.valueError m)))
    ∧ create_hosting envOk baseFS "blog" (.many ["", "  "])
        "/etc/nginx" "/var/www" "/var/log/nginx" none none true =
        (baseFS, .error (.valueError "server_names must contain at least one non-empty name"))
    ∧ create_hosting envOk collideFS "blog" (.many ["e.com"])
        "/etc/nginx" "/var/www" "/var/log/nginx" none none true =
        (collideFS, .error (.fileExistsError ("configuration already exists: " ++
          (computeSitePaths "/etc/nginx" "/var/www" "/var/log/nginx" "blog" none).sites_available_path))) :=
  ⟨(rejects_before_mutation envOk baseFS "a/b" (.many ["e.com"])
      "/etc/nginx" "/var/www" "/var/log/nginx" none none true).1 (by decide),
   (rejects_before_mutation envOk baseFS "blog" (.many ["", "  "])
      "/etc/nginx" "/var/www" "/var/log/nginx" none none true).2.1 (by decide) (by decide),
   (rejects_before_mutation envOk collideFS "blog" (.many ["e.com"])
      "/etc/nginx" "/var/www" "/var/log/nginx" none none true).2.2
      (by decide) (by decide) (by decide)⟩

/-! ## Symbolic execution of the creation workflow up to activation -/

/-- With the available path vacant and no directory at the enabled path,
the write-and-cleanup phase reaches activation: the available path then
holds the rendered file, the enabled path is clear (any stale occupant has
been unlinked), and no other path changed. -/
theorem writeAndActivate_reaches (env : HostingEnv) (g : FS)
    (avail enabled rendered : String)
    (hga : g avail = none) (hge : g enabled ≠ some Node.dir)
    (hne : avail ≠ enabled) :
    ∃ fs5 : FS,
      writeAndActivate env g avail enabled rendered = activateSite env fs5 avail enabled
      ∧ isFileAt fs5 avail = true
      ∧ fs5 enabled = none
      ∧ ∀ q, q ≠ avail → q ≠ enabled → fs5 q = g q := by
  unfold writeAndActivate
  rw [writeText_vacant hga]
  have h4e : (FS.set g avail (Node.file rendered)) enabled = g enabled := by
    simp [FS.set, Ne.symm hne]
  have h4a : (FS.set g avail (Node.file rendered)) avail = some (Node.file rendered) := by
    simp [FS.set]
  match hnode : g enabled with
  | none =>
    have hex : existsAt (FS.set g avail (Node.file rendered)) enabled = false :=
      existsAt_none (h4e.trans hnode)
    have hsy : isSymlinkAt (FS.set g avail (Node.file rendered)) enabled = false :=
      isSymlinkAt_none (h4e.trans hnode)
    refine ⟨FS.set g avail (Node.file rendered), ?_, ?_, h4e.trans hnode, ?_⟩
    · simp [hex, hsy]
    · simp [isFileAt, FS.set]
    · intro q hqa _
      simp [FS.set, hqa]
  | some (Node.file c) =>
    have hex : existsAt (FS.set g avail (Node.file rendered)) enabled = true :=
      existsAt_file (h4e.trans hnode)
    have hdel := @unlinkAt_file _ _ _ false (h4e.trans hnode)
    refine ⟨FS.del (FS.set g avail (Node.file rendered)) enabled, ?_, ?_, ?_, ?_⟩
    · simp [hex, hdel]
    · simp [isFileAt, FS.del, FS.set, hne]
    · simp [FS.del]
    · intro q hqa hqe
      simp [FS.del, FS.set, hqa, hqe]
  | some (Node.symlink t) =>
    have hsy : isSymlinkAt (FS.set g avail (Node.file rendered)) enabled = true := by
      unfold isSymlinkAt
      rw [h4e, hnode]
    have hdel := @unlinkAt_symlink _ _ _ false (h4e.trans hnode)
    refine ⟨FS.del (FS.set g avail (Node.file rendered)) enabled, ?_, ?_, ?_, ?_⟩
    · simp [hsy, hdel]
    · simp [isFileAt, FS.del, FS.set, hne]
    · simp [FS.del]
    · intro q hqa hqe
      simp [FS.del, FS.set, hqa, hqe]
  | some Node.dir => exact absurd hnode hge

/-- Under validation, a vacant available path, existing parent directories
and a well-typed enabled/document-root state, `create_hosting` reaches the
activation stage, having written the configuration file, created the
document root and cleared the enabled path. -/
theorem create_hosting_reaches (env : HostingEnv) (fs : FS) (site : String)
    (sns : ServerNames) (nroot wroot logd : String) (cfg tmpl : Option String)
    (isCert : Bool) (P : SitePaths) (A : List String)
    (hP : P = computeSitePaths nroot wroot logd site cfg)
    (hv : _validate_site_name site = .ok ())
    (hn : _normalize_server_names sns ≠ [])
    (hAvail : fs P.sites_available_path = none)
    (hDirsA : ∀ q ∈ pathPrefixes (parentOf P.sites_available_path), fs q = some Node.dir)
    (hDirsE : ∀ q ∈ pathPrefixes (parentOf P.sites_enabled_path), fs q = some Node.dir)
    (hsplit : pathPrefixes P.document_root = A ++ [P.document_root])
    (hA : ∀ q ∈ A, fs q = some Node.dir)
    (hdoc : fs P.document_root = none ∨ fs P.document_root = some Node.dir)
    (hEn : fs P.sites_enabled_path ≠ some Node.dir)
    (hne1 : P.document_root ≠ P.sites_available_path)
    (hne2 : P.document_root ≠ P.sites_enabled_path)
    (hne3 : P.sites_available_path ≠ P.sites_enabled_path) :
    ∃ fs5 : FS,
      create_hosting env fs site sns nroot wroot logd cfg tmpl isCert =
        activateSite env fs5 P.sites_available_path P.sites_enabled_path
      ∧ isFileAt fs5 P.sites_available_path = true
      ∧ fs5 P.sites_enabled_path = none
      ∧ fs5 P.document_root = some Node.dir
      ∧ ∀ q, q ≠ P.sites_available_path → q ≠ P.sites_enabled_path →
          q ≠ P.document_root → fs5 q = fs q := by
  have hcol : existsAt fs P.sites_available_path = false := existsAt_none hAvail
  rcases hdoc with hd | hd
  · -- the document root is created fresh
    have hmk3 : mkdirAll fs P.document_root = (FS.set fs P.document_root Node.dir, none) :=
      mkdirAll_creates hsplit hA hd
    have hga : (FS.set fs P.document_root Node.dir) P.sites_available_path = none := by
      simp [FS.set, Ne.symm hne1, hAvail]
    have hge : (FS.set fs P.document_root Node.dir) P.sites_enabled_path ≠ some Node.dir := by
      simpa [FS.set, Ne.symm hne2] using hEn
    obtain ⟨fs5, heq, hfile, hen, hpres⟩ :=
      writeAndActivate_reaches env (FS.set fs P.document_root Node.dir)
        P.sites_available_path P.sites_enabled_path
        (_render_config
          (tmpl.getD (if isCert then DEFAULT_CONFIG_TEMPLATE else DEFAULT_CONFIG_TEMPLATE_NO_SSL))
          (_normalize_server_names sns) P.document_root P.access_log_path P.error_log_path
          ((if isCert then some (_default_certificate_paths (_normalize_server_names sns)) else none).map Prod.fst)
          ((if isCert then some (_default_certificate_paths (_normalize_server_names sns)) else none).map Prod.snd))
        hga hge hne3
    refine ⟨fs5, ?_, hfile, hen, ?_, ?_⟩
    · unfold create_hosting
      rw [hv]
      rw [← hP]
      simp only [if_neg hn, hcol, Bool.false_eq_true, if_false,
        mkdirAll_noop hDirsA, mkdirAll_noop hDirsE, hmk3]
      exact heq
    · rw [hpres P.document_root hne1 hne2]
      simp [FS.set]
    · intro q hqa hqe hqd
      rw [hpres q hqa hqe]
      simp [FS.set, hqd]
  · -- the document root already exists
    have hmk3 : mkdirAll fs P.document_root = (fs, none) := by
      apply mkdirAll_noop
      intro q hq
      rw [hsplit] at hq
      rcases List.mem_append.mp hq with h1 | h1
      · exact hA q h1
      · rw [List.mem_singleton.mp h1]
        exact hd
    obtain ⟨fs5, heq, hfile, hen, hpres⟩ :=
      writeAndActivate_reaches env fs
        P.sites_available_path P.sites_enabled_path
        (_render_config
          (tmpl.getD (if isCert then DEFAULT_CONFIG_TEMPLATE else DEFAULT_CONFIG_TEMPLATE_NO_SSL))
          (_normalize_server_names sns) P.document_root P.access_log_path P.error_log_path
          ((if isCert then some (_default_certificate_paths (_normalize_server_names sns)) else none).map Prod.fst)
          ((if isCert then some (_default_certificate_paths (_normalize_server_names sns)) else none).map Prod.snd))
        hAvail hEn hne3
    refine ⟨fs5, ?_, hfile, hen, ?_, ?_⟩
    · unfold create_hosting
      rw [hv]
      rw [← hP]
      simp only [if_neg hn, hcol, Bool.false_eq_true, if_false,
        mkdirAll_noop hDirsA, mkdirAll_noop hDirsE, hmk3]
      exact heq
    · rw [hpres P.document_root hne1 hne2]
      exact hd
    · intro q hqa hqe _
      exact hpres q hqa hqe

/-! ## The four outcomes of the activation stage -/

theorem isFileAt_congr {f g : FS} {p : String} (h : f p = g p) :
    isFileAt f p = isFileAt g p := by
  unfold isFileAt; rw [h]

theorem activateSite_ok (env : HostingEnv) (fs5 : FS) (avail enabled : String)
    (hs : env.symlinkOk = true) (ht : env.testResult.ok = true)
    (hr : env.reloadResult.ok = true) :
    activateSite env fs5 avail enabled =
      (FS.set fs5 enabled (Node.symlink avail), .ok env.reloadResult) := by
  unfold activateSite
  simp [hs, ht, hr]

theorem activateSite_symlink_fail (env : HostingEnv) (fs5 : FS) (avail enabled : String)
    (hs : env.symlinkOk = false) (hfile : isFileAt fs5 avail = true) :
    activateSite env fs5 avail enabled =
      (FS.del fs5 avail, .error (.runtimeError "failed to enable site")) := by
  obtain ⟨c, hc⟩ : ∃ c, fs5 avail = some (Node.file c) := by
    unfold isFileAt at hfile
    match h : fs5 avail with
    | some (Node.file c) => exact ⟨c, rfl⟩
    | some (Node.symlink t) => rw [h] at hfile; simp at hfile
    | some Node.dir => rw [h] at hfile; simp at hfile
    | none => rw [h] at hfile; simp at hfile
  unfold activateSite
  simp [hs, unlinkAt_file hc]

theorem activateSite_test_fail (env : HostingEnv) (fs5 : FS) (avail enabled : String)
    (hs : env.symlinkOk = true) (ht : env.testResult.ok = false) :
    activateSite env fs5 avail enabled =
      (FS.del (FS.set fs5 enabled (Node.symlink avail)) enabled,
       .error (.runtimeError ("nginx configuration test failed: " ++ resultMessage env.testResult))) := by
  have hlink : (FS.set fs5 enabled (Node.symlink avail)) enabled = some (Node.symlink avail) := by
    simp [FS.set]
  unfold activateSite
  simp [hs, ht, unlinkAt_symlink hlink]

theorem activateSite_reload_fail (env : HostingEnv) (fs5 : FS) (avail enabled : String)
    (hs : env.symlinkOk = true) (ht : env.testResult.ok = true)
    (hr : env.reloadResult.ok = false) :
    activateSite env fs5 avail enabled =
      (FS.set fs5 enabled (Node.symlink avail),
       .error (.runtimeError ("failed to reload nginx: " ++ resultMessage env.reloadResult))) := by
  unfold activateSite
  simp [hs, ht, hr]

/-! ## C1: rollback behaviour of `create_hosting` -/

/-- Environment in which symlink creation fails. -/
def envNoLink : HostingEnv := ⟨false, okTest, okReload⟩

/-- A filesystem carrying a stale (dangling) symlink at the enabled path. -/
def staleFS : FS := fun p =>
  if p = "/etc/nginx/sites-enabled/blog.conf" then some (Node.symlink "/old")
  else baseFS p

/-- C1 counterexample: a call that passes validation and the collision
check, on a filesystem with a stale symlink at the enabled path.  Symlink
creation fails, the available-config file is deleted as claimed — but the
pre-call state at the enabled path is NOT restored: the stale symlink was
removed before the symlink attempt and the rollback does not recreate it,
so the claim's "restoring the pre-call state at those paths" is false. -/
theorem create_rollback_cex :
    _validate_site_name "blog" = .ok ()
    ∧ existsAt staleFS "/etc/nginx/sites-available/blog.conf" = false
    ∧ (create_hosting envNoLink staleFS "blog" (.many ["blog.example.com"])
        "/etc/nginx" "/var/www" "/var/log/nginx" none none true).2
      = .error (.runtimeError "failed to enable site")
    ∧ (create_hosting envNoLink staleFS "blog" (.many ["blog.example.com"])
        "/etc/nginx" "/var/www" "/var/log/nginx" none none true).1
        "/etc/nginx/sites-available/blog.conf" = none
    ∧ staleFS "/etc/nginx/sites-enabled/blog.conf" = some (Node.symlink "/old")
    ∧ (create_hosting envNoLink staleFS "blog" (.many ["blog.example.com"])
        "/etc/nginx" "/var/www" "/var/log/nginx" none none true).1
        "/etc/nginx/sites-enabled/blog.conf" = none := by
  refine ⟨by decide, by decide, by decide, by decide, by decide, by decide⟩

/-- C1 (amended): for every `create_hosting` call that passes input
validation and the collision check and reaches the activation stage (the
available path vacant, parent directories present, no directory at the
enabled path): if symlink creation fails, the just-written available-config
file is deleted before the error is raised and the enabled path is left
clear — any pre-existing stale entry at the enabled path was removed
beforehand and is not restored; if the configuration test then fails, the
enabled symlink is removed but the available-config file remains; if the
reload fails after a passing test, both the available-config file and the
enabled symlink remain. -/
theorem create_rollback_spec :
    ∀ (env : HostingEnv) (fs : FS) (site : String) (sns : ServerNames)
      (nroot wroot logd : String) (cfg tmpl : Option String) (isCert : Bool)
      (P : SitePaths) (A : List String),
      P = computeSitePaths nroot wroot logd site cfg →
      _validate_site_name site = .ok () →
      _normalize_server_names sns ≠ [] →
      fs P.sites_available_path = none →
      (∀ q ∈ pathPrefixes (parentOf P.sites_available_path), fs q = some Node.dir) →
      (∀ q ∈ pathPrefixes (parentOf P.sites_enabled_path), fs q = some Node.dir) →
      pathPrefixes P.document_root = A ++ [P.document_root] →
      (∀ q ∈ A, fs q = some Node.dir) →
      (fs P.document_root = none ∨ fs P.document_root = some Node.dir) →
      fs P.sites_enabled_path ≠ some Node.dir →
      P.document_root ≠ P.sites_available_path →
      P.document_root ≠ P.sites_enabled_path →
      P.sites_available_path ≠ P.sites_enabled_path →
      ((env.symlinkOk = false →
          (create_hosting env fs site sns nroot wroot logd cfg tmpl isCert).2 =
            .error (.runtimeError "failed to enable site")
          ∧ (create_hosting env fs site sns nroot wroot logd cfg tmpl isCert).1
              P.sites_available_path = none
          ∧ (create_hosting env fs site sns nroot wroot logd cfg tmpl isCert).1
              P.sites_enabled_path = none)
       ∧ (env.symlinkOk = true → env.testResult.ok = false →
          (create_hosting env fs site sns nroot wroot logd cfg tmpl isCert).2 =
            .error (.runtimeError ("nginx configuration test failed: " ++ resultMessage env.testResult))
          ∧ (create_hosting env fs site sns nroot wroot logd cfg tmpl isCert).1
              P.sites_enabled_path = none
          ∧ isFileAt (create_hosting env fs site sns nroot wroot logd cfg tmpl isCert).1
              P.sites_available_path = true)
       ∧ (env.symlinkOk = true → env.testResult.ok = true → env.reloadResult.ok = false →
          (create_hosting env fs site sns nroot wroot logd cfg tmpl isCert).2 =
            .error (.runtimeError ("failed to reload nginx: " ++ resultMessage env.reloadResult))
          ∧ (create_hosting env fs site sns nroot wroot logd cfg tmpl isCert).1
              P.sites_enabled_path = some (Node.symlink P.sites_available_path)
          ∧ isFileAt (create_hosting env fs site sns nroot wroot logd cfg tmpl isCert).1
              P.sites_available_path = true)) := by
  intro env fs site sns nroot wroot logd cfg tmpl isCert P A
  intro hP hv hn hAvail hDirsA hDirsE hsplit hA hdoc hEn hne1 hne2 hne3
  obtain ⟨fs5, heq, hfile, hen, hdr, hpres⟩ :=
    create_hosting_reaches env fs site sns nroot wroot logd cfg tmpl isCert P A
      hP hv hn hAvail hDirsA hDirsE hsplit hA hdoc hEn hne1 hne2 hne3
  refine ⟨fun hs => ?_, fun hs ht => ?_, fun hs ht hr => ?_⟩
  · rw [heq, activateSite_symlink_fail env fs5 _ _ hs hfile]
    refine ⟨rfl, by simp [FS.del], ?_⟩
    simp only [FS.del]
    rw [if_neg (Ne.symm hne3)]
    exact hen
  · rw [heq, activateSite_test_fail env fs5 _ _ hs ht]
    refine ⟨rfl, by simp [FS.del], ?_⟩
    have hval : (FS.del (FS.set fs5 P.sites_enabled_path (Node.symlink P.sites_available_path))
        P.sites_enabled_path) P.sites_available_path = fs5 P.sites_available_path := by
      simp [FS.del, FS.set, hne3]
    rw [isFileAt_congr hval]
    exact hfile
  · rw [heq, activateSite_reload_fail env fs5 _ _ hs ht hr]
    refine ⟨rfl, by simp [FS.set], ?_⟩
    have hval : (FS.set fs5 P.sites_enabled_path (Node.symlink P.sites_available_path))
        P.sites_available_path = fs5 P.sites_available_path := by
      simp [FS.set, hne3]
    rw [isFileAt_congr hval]
    exact hfile

/-- Environment in which the symlink succeeds but `nginx -t` fails. -/
def envTestFail : HostingEnv := ⟨true, failTest, okReload⟩

theorem create_rollback_spec_witness :
    (create_hosting envTestFail baseFS "blog" (.many ["blog.example.com"])
        "/etc/nginx" "/var/www" "/var/log/nginx" none none true).2 =
      .error (.runtimeError ("nginx configuration test failed: " ++ resultMessage envTestFail.testResult))
    ∧ (create_hosting envTestFail baseFS "blog" (.many ["blog.example.com"])
        "/etc/nginx" "/var/www" "/var/log/nginx" none none true).1
        (computeSitePaths "/etc/nginx" "/var/www" "/var/log/nginx" "blog" none).sites_enabled_path = none
    ∧ isFileAt (create_hosting envTestFail baseFS "blog" (.many ["blog.example.com"])
        "/etc/nginx" "/var/www" "/var/log/nginx" none none true).1
        (computeSitePaths "/etc/nginx" "/var/www" "/var/log/nginx" "blog" none).sites_available_path = true :=
  (create_rollback_spec envTestFail baseFS "blog" (.many ["blog.example.com"])
    "/etc/nginx" "/var/www" "/var/log/nginx" none none true
    (computeSitePaths "/etc/nginx" "/var/www" "/var/log/nginx" "blog" none)
    ["/var", "/var/www"] rfl (by decide) (by decide) (by decide) (by decide)
    (by decide) (by decide) (by decide) (by decide) (by decide) (by decide)
    (by decide) (by decide)).2.1 (by decide) (by decide)

/-! ## Symbolic execution of the removal workflow -/

/-- Removing a site none of whose artefacts exist touches nothing and
succeeds (given passing test and reload commands). -/
theorem remove_hosting_absent (env : HostingEnv) (fs : FS) (site : String)
    (nroot wroot logd : String) (cfg : Option String) (P : SitePaths)
    (hP : P = computeSitePaths nroot wroot logd site cfg)
    (hv : _validate_site_name site = .ok ())
    (h1 : fs P.sites_enabled_path = none)
    (h2 : fs P.sites_available_path = none)
    (h3 : fs P.document_root = none)
    (h4 : fs P.access_log_path = none)
    (h5 : fs P.error_log_path = none)
    (ht : env.testResult.ok = true) (hr : env.reloadResult.ok = true) :
    remove_hosting env fs site nroot wroot logd cfg = (fs, .ok env.reloadResult) := by
  unfold remove_hosting
  rw [hv, ← hP]
  simp only [unlinkAt_missing h1, unlinkAt_missing h2, existsAt_none h3,
    Bool.false_eq_true, if_false, unlinkAt_missing h4, unlinkAt_missing h5, ht, hr]
  simp

/-- First removal on a well-typed filesystem: every artefact path ends up
absent, anything under the document root is pruned when the root was a
directory, and every unrelated path is untouched. -/
theorem remove_hosting_cleans (env : HostingEnv) (fs : FS) (site : String)
    (nroot wroot logd : String) (cfg : Option String) (P : SitePaths)
    (hP : P = computeSitePaths nroot wroot logd site cfg)
    (hv : _validate_site_name site = .ok ())
    (hEn : fs P.sites_enabled_path ≠ some Node.dir)
    (hAv : fs P.sites_available_path ≠ some Node.dir)
    (hAc : fs P.access_log_path ≠ some Node.dir)
    (hEr : fs P.error_log_path ≠ some Node.dir)
    (hDoc : fs P.document_root = none ∨ fs P.document_root = some Node.dir)
    (ht : env.testResult.ok = true) (hr : env.reloadResult.ok = true) :
    ∃ fsR : FS,
      remove_hosting env fs site nroot wroot logd cfg = (fsR, .ok env.reloadResult)
      ∧ fsR P.sites_enabled_path = none
      ∧ fsR P.sites_available_path = none
      ∧ fsR P.document_root = none
      ∧ fsR P.access_log_path = none
      ∧ fsR P.error_log_path = none
      ∧ (∀ q, q ≠ P.sites_enabled_path → q ≠ P.sites_available_path →
          q ≠ P.document_root → isUnder P.document_root q = false →
          q ≠ P.access_log_path → q ≠ P.error_log_path → fsR q = fs q)
      ∧ (∀ q, isUnder P.document_root q = true → fsR q = none ∨ fsR q = fs q) := by
  obtain ⟨fs1, e1, p1⟩ := unlinkAt_ok hEn
  have hAv1 : fs1 P.sites_available_path ≠ some Node.dir := by
    rw [p1]
    by_cases h : P.sites_available_path = P.sites_enabled_path <;> simp [h, hAv]
  obtain ⟨fs2, e2, p2⟩ := unlinkAt_ok hAv1
  have p12 : ∀ q, fs2 q =
      if q = P.sites_available_path ∨ q = P.sites_enabled_path then none else fs q := by
    intro q
    rw [p2 q, p1 q]
    by_cases h1 : q = P.sites_available_path <;> by_cases h2 : q = P.sites_enabled_path <;>
      simp [h1, h2]
  have hDoc2 : fs2 P.document_root = none ∨ fs2 P.document_root = some Node.dir := by
    rw [p12]
    by_cases h : P.document_root = P.sites_available_path ∨ P.document_root = P.sites_enabled_path
    · simp [h]
    · simpa [h] using hDoc
  -- characterise the state after the (conditional) rmtree
  have hstep : ∃ fs3 : FS,
      (if existsAt fs2 P.document_root = true then rmtree fs2 P.document_root
       else Except.ok fs2) = .ok fs3
      ∧ (∀ q, fs3 q =
          if (fs2 P.document_root = some Node.dir) ∧ (q = P.document_root ∨ isUnder P.document_root q = true)
          then none else fs2 q)
      ∧ fs3 P.document_root = none := by
    rcases hDoc2 with hd | hd
    · refine ⟨fs2, by rw [existsAt_none hd]; rfl, fun q => ?_, hd⟩
      rw [hd]
      simp
    · refine ⟨_, by rw [existsAt_dir hd, if_pos rfl, rmtree_dir hd], fun q => ?_, ?_⟩
      · rw [hd]
        by_cases h1 : q = P.document_root <;> by_cases h2 : isUnder P.document_root q = true <;>
          simp [h1, h2]
      · simp
  obtain ⟨fs3, e3, p3, hd3⟩ := hstep
  have hAc3 : fs3 P.access_log_path ≠ some Node.dir := by
    rw [p3]
    by_cases h : (fs2 P.document_root = some Node.dir) ∧
        (P.access_log_path = P.document_root ∨ isUnder P.document_root P.access_log_path = true)
    · simp [h]
    · rw [if_neg h, p12]
      by_cases h2 : P.access_log_path = P.sites_available_path ∨ P.access_log_path = P.sites_enabled_path
      · simp [h2]
      · simpa [h2] using hAc
  obtain ⟨fs4, e4, p4⟩ := unlinkAt_ok hAc3
  have hEr4 : fs4 P.error_log_path ≠ some Node.dir := by
    rw [p4]
    by_cases h : P.error_log_path = P.access_log_path
    · simp [h]
    · rw [if_neg h, p3]
      by_cases h1 : (fs2 P.document_root = some Node.dir) ∧
          (P.error_log_path = P.document_root ∨ isUnder P.document_root P.error_log_path = true)
      · simp [h1]
      · rw [if_neg h1, p12]
        by_cases h2 : P.error_log_path = P.sites_available_path ∨ P.error_log_path = P.sites_enabled_path
        · simp [h2]
        · simpa [h2] using hEr
  obtain ⟨fs5, e5, p5⟩ := unlinkAt_ok hEr4
  refine ⟨fs5, ?_, ?_, ?_, ?_, ?_, ?_, ?_, ?_⟩
  · unfold remove_hosting
    rw [hv, ← hP]
    simp only [e1, e2, e3, e4, e5, ht, hr]
    simp
  · rw [p5, p4, p3]
    by_cases h1 : P.sites_enabled_path = P.error_log_path <;>
      by_cases h2 : P.sites_enabled_path = P.access_log_path <;>
      by_cases h3 : (fs2 P.document_root = some Node.dir) ∧
        (P.sites_enabled_path = P.document_root ∨ isUnder P.document_root P.sites_enabled_path = true) <;>
      simp [h1, h2, h3, p12]
  · rw [p5, p4, p3]
    by_cases h1 : P.sites_available_path = P.error_log_path <;>
      by_cases h2 : P.sites_available_path = P.access_log_path <;>
      by_cases h3 : (fs2 P.document_root = some Node.dir) ∧
        (P.sites_available_path = P.document_root ∨ isUnder P.document_root P.sites_available_path = true) <;>
      simp [h1, h2, h3, p12]
  · rw [p5, p4]
    by_cases h1 : P.document_root = P.error_log_path <;>
      by_cases h2 : P.document_root = P.access_log_path <;>
      simp [h1, h2, hd3]
  · rw [p5]
    by_cases h1 : P.access_log_path = P.error_log_path <;> simp [h1, p4]
  · simp [p5]
  · intro q hq1 hq2 hq3 hq4 hq5 hq6
    have hno : ¬ ((fs2 P.document_root = some Node.dir) ∧
        (q = P.document_root ∨ isUnder P.document_root q = true)) := by
      intro hcon
      rcases hcon.2 with h | h
      · exact hq3 h
      · rw [hq4] at h
        cases h
    rw [p5, if_neg hq6, p4, if_neg hq5, p3, if_neg hno, p12]
    simp [hq1, hq2]
  · intro q hq
    rw [p5, p4, p3]
    by_cases h1 : q = P.error_log_path
    · left; simp [h1]
    · by_cases h2 : q = P.access_log_path
      · left; simp [h1, h2]
      · by_cases h3 : (fs2 P.document_root = some Node.dir) ∧
            (q = P.document_root ∨ isUnder P.document_root q = true)
        · left; simp [h1, h2, h3]
        · rw [if_neg h1, if_neg h2, if_neg h3, p12]
          by_cases h4 : q = P.sites_available_path ∨ q = P.sites_enabled_path
          · left; simp [h4]
          · right; simp [h4]

/-- C4: for every valid site name on a well-typed filesystem (no directory
at the four file paths, document root absent or a directory) and passing
test/reload commands, removal succeeds, leaves the enabled symlink,
available-config file, document root and both log files absent, and a
second removal succeeds with the identical outcome — the same reload
result and the exact same filesystem; removal never fails because a target
is already absent. -/
theorem remove_hosting_idempotent :
    ∀ (env : HostingEnv) (fs : FS) (site : String)
      (nroot wroot logd : String) (cfg : Option String) (P : SitePaths),
      P = computeSitePaths nroot wroot logd site cfg →
      _validate_site_name site = .ok () →
      env.testResult.ok = true → env.reloadResult.ok = true →
      fs P.sites_enabled_path ≠ some Node.dir →
      fs P.sites_available_path ≠ some Node.dir →
      fs P.access_log_path ≠ some Node.dir →
      fs P.error_log_path ≠ some Node.dir →
      (fs P.document_root = none ∨ fs P.document_root = some Node.dir) →
      ((remove_hosting env fs site nroot wroot logd cfg).2 = .ok env.reloadResult
       ∧ (remove_hosting env fs site nroot wroot logd cfg).1 P.sites_enabled_path = none
       ∧ (remove_hosting env fs site nroot wroot logd cfg).1 P.sites_available_path = none
       ∧ (remove_hosting env fs site nroot wroot logd cfg).1 P.document_root = none
       ∧ (remove_hosting env fs site nroot wroot logd cfg).1 P.access_log_path = none
       ∧ (remove_hosting env fs site nroot wroot logd cfg).1 P.error_log_path = none
       ∧ remove_hosting env (remove_hosting env fs site nroot wroot logd cfg).1
           site nroot wroot logd cfg =
           ((remove_hosting env fs site nroot wroot logd cfg).1, .ok env.reloadResult)) := by
  intro env fs site nroot wroot logd cfg P hP hv ht hr hEn hAv hAc hEr hDoc
  obtain ⟨fsR, heq, hn1, hn2, hn3, hn4, hn5, _, _⟩ :=
    remove_hosting_cleans env fs site nroot wroot logd cfg P hP hv hEn hAv hAc hEr hDoc ht hr
  rw [heq]
  exact ⟨rfl, hn1, hn2, hn3, hn4, hn5,
    remove_hosting_absent env fsR site nroot wroot logd cfg P hP hv hn1 hn2 hn3 hn4 hn5 ht hr⟩

/-- A filesystem populated with all five artefacts of site `blog`. -/
def populatedFS : FS := fun p =>
  if p = "/etc/nginx/sites-enabled/blog.conf" then
    some (Node.symlink "/etc/nginx/sites-available/blog.conf")
  else if p = "/etc/nginx/sites-available/blog.conf" then some (Node.file "server")
  else if p = "/var/www/blog" then some Node.dir
  else if p = "/var/www/blog/index.html" then some (Node.file "hi")
  else if p = "/var/log/nginx/blog.access.log" then some (Node.file "")
  else if p = "/var/log/nginx/blog.error.log" then some (Node.file "")
  else baseFS p

theorem remove_hosting_idempotent_witness :
    (remove_hosting envOk populatedFS "blog" "/etc/nginx" "/var/www" "/var/log/nginx" none).2
      = .ok envOk.reloadResult
    ∧ (remove_hosting envOk populatedFS "blog" "/etc/nginx" "/var/www" "/var/log/nginx" none).1
        (computeSitePaths "/etc/nginx" "/var/www" "/var/log/nginx" "blog" none).sites_enabled_path = none
    ∧ (remove_hosting envOk populatedFS "blog" "/etc/nginx" "/var/www" "/var/log/nginx" none).1
        (computeSitePaths "/etc/nginx" "/var/www" "/var/log/nginx" "blog" none).sites_available_path = none
    ∧ (remove_hosting envOk populatedFS "blog" "/etc/nginx" "/var/www" "/var/log/nginx" none).1
        (computeSitePaths "/etc/nginx" "/var/www" "/var/log/nginx" "blog" none).document_root = none
    ∧ (remove_hosting envOk populatedFS "blog" "/etc/nginx" "/var/www" "/var/log/nginx" none).1
        (computeSitePaths "/etc/nginx" "/var/www" "/var/log/nginx" "blog" none).access_log_path = none
    ∧ (remove_hosting envOk populatedFS "blog" "/etc/nginx" "/var/www" "/var/log/nginx" none).1
        (computeSitePaths "/etc/nginx" "/var/www" "/var/log/nginx" "blog" none).error_log_path = none
    ∧ remove_hosting envOk
        (remove_hosting envOk populatedFS "blog" "/etc/nginx" "/var/www" "/var/log/nginx" none).1
        "blog" "/etc/nginx" "/var/www" "/var/log/nginx" none =
        ((remove_hosting envOk populatedFS "blog" "/etc/nginx" "/var/www" "/var/log/nginx" none).1,
         .ok envOk.reloadResult) :=
  remove_hosting_idempotent envOk populatedFS "blog" "/etc/nginx" "/var/www" "/var/log/nginx"
    none (computeSitePaths "/etc/nginx" "/var/www" "/var/log/nginx" "blog" none) rfl
    (by decide) (by decide) (by decide) (by decide) (by decide) (by decide) (by decide)
    (by decide)

/-! ## C2: the create-then-remove round trip -/

/-- The empty filesystem. -/
def emptyFS : FS := fun _ => none

/-- C2 counterexample: starting from an empty filesystem, a successful
create (commands succeeding) followed by remove leaves the
`sites-available` directory (created by `mkdir(parents=True)`) behind, so
the filesystem is NOT identical to its pre-create state. -/
theorem create_remove_roundtrip_cex :
    (create_hosting envOk emptyFS "blog" (.many ["blog.example.com"])
        "/etc/nginx" "/var/www" "/var/log/nginx" none none true).2 = .ok okReload
    ∧ (remove_hosting envOk
        (create_hosting envOk emptyFS "blog" (.many ["blog.example.com"])
          "/etc/nginx" "/var/www" "/var/log/nginx" none none true).1
        "blog" "/etc/nginx" "/var/www" "/var/log/nginx" none).2 = .ok okReload
    ∧ (remove_hosting envOk
        (create_hosting envOk emptyFS "blog" (.many ["blog.example.com"])
          "/etc/nginx" "/var/www" "/var/log/nginx" none none true).1
        "blog" "/etc/nginx" "/var/www" "/var/log/nginx" none).1
        "/etc/nginx/sites-available" = some Node.dir
    ∧ emptyFS "/etc/nginx/sites-available" = none := by
  refine ⟨by decide, by decide, by decide, by decide⟩

theorem isFileAt_ne_dir {f : FS} {p : String} (h : isFileAt f p = true) :
    f p ≠ some Node.dir := by
  unfold isFileAt at h
  intro hc
  rw [hc] at h
  simp at h

/-- C2 (amended): for every valid site name and server-name list that
normalizes to non-empty, with all external commands succeeding, and
starting from a filesystem in which the parent directories already exist
and none of the site's artefact paths (available config, enabled link,
document root and its subtree, both log files) is occupied,
create-then-remove returns the filesystem to exactly its pre-create state.
(Without these vacancy conditions the round trip is not the identity: the
counterexample shows the directories created by `mkdir(parents=True)`
survive removal.) -/
theorem create_remove_roundtrip :
    ∀ (env : HostingEnv) (fs : FS) (site : String) (sns : ServerNames)
      (nroot wroot logd : String) (P : SitePaths) (A : List String),
      P = computeSitePaths nroot wroot logd site none →
      _validate_site_name site = .ok () →
      _normalize_server_names sns ≠ [] →
      env.symlinkOk = true → env.testResult.ok = true → env.reloadResult.ok = true →
      fs P.sites_available_path = none →
      fs P.sites_enabled_path = none →
      fs P.document_root = none →
      (∀ q, isUnder P.document_root q = true → fs q = none) →
      fs P.access_log_path = none →
      fs P.error_log_path = none →
      (∀ q ∈ pathPrefixes (parentOf P.sites_available_path), fs q = some Node.dir) →
      (∀ q ∈ pathPrefixes (parentOf P.sites_enabled_path), fs q = some Node.dir) →
      pathPrefixes P.document_root = A ++ [P.document_root] →
      (∀ q ∈ A, fs q = some Node.dir) →
      P.document_root ≠ P.sites_available_path →
      P.document_root ≠ P.sites_enabled_path →
      P.sites_available_path ≠ P.sites_enabled_path →
      P.access_log_path ≠ P.sites_available_path →
      P.access_log_path ≠ P.sites_enabled_path →
      P.access_log_path ≠ P.document_root →
      P.error_log_path ≠ P.sites_available_path →
      P.error_log_path ≠ P.sites_enabled_path →
      P.error_log_path ≠ P.document_root →
      ((create_hosting env fs site sns nroot wroot logd none none true).2 = .ok env.reloadResult
       ∧ (remove_hosting env (create_hosting env fs site sns nroot wroot logd none none true).1
            site nroot wroot logd none).2 = .ok env.reloadResult
       ∧ ∀ q, (remove_hosting env (create_hosting env fs site sns nroot wroot logd none none true).1
            site nroot wroot logd none).1 q = fs q) := by
  intro env fs site sns nroot wroot logd P A
  intro hP hv hn hs ht hr hAvail hEnab hDocN hUnder hAcc hErr hDirsA hDirsE hsplit hA
  intro hne1 hne2 hne3 hac1 hac2 hac3 her1 her2 her3
  obtain ⟨fs5, heqC, hfile, hen5, hdr5, hpres5⟩ :=
    create_hosting_reaches env fs site sns nroot wroot logd none none true P A
      hP hv hn hAvail hDirsA hDirsE hsplit hA (Or.inl hDocN)
      (by rw [hEnab]; intro h; cases h) hne1 hne2 hne3
  have heqCreate : create_hosting env fs site sns nroot wroot logd none none true =
      (FS.set fs5 P.sites_enabled_path (Node.symlink P.sites_available_path), .ok env.reloadResult) := by
    rw [heqC, activateSite_ok env fs5 _ _ hs ht hr]
  have f6 : ∀ q, (FS.set fs5 P.sites_enabled_path (Node.symlink P.sites_available_path)) q =
      if q = P.sites_enabled_path then some (Node.symlink P.sites_available_path) else fs5 q :=
    fun q => rfl
  have f6En : (FS.set fs5 P.sites_enabled_path (Node.symlink P.sites_available_path))
      P.sites_enabled_path ≠ some Node.dir := by
    rw [f6]; simp
  have f6Av : (FS.set fs5 P.sites_enabled_path (Node.symlink P.sites_available_path))
      P.sites_available_path ≠ some Node.dir := by
    rw [f6, if_neg hne3]
    exact isFileAt_ne_dir hfile
  have f6Ac : (FS.set fs5 P.sites_enabled_path (Node.symlink P.sites_available_path))
      P.access_log_path = none := by
    rw [f6, if_neg hac2, hpres5 P.access_log_path hac1 hac2 hac3]
    exact hAcc
  have f6Er : (FS.set fs5 P.sites_enabled_path (Node.symlink P.sites_available_path))
      P.error_log_path = none := by
    rw [f6, if_neg her2, hpres5 P.error_log_path her1 her2 her3]
    exact hErr
  have f6Doc : (FS.set fs5 P.sites_enabled_path (Node.symlink P.sites_available_path))
      P.document_root = some Node.dir := by
    rw [f6, if_neg hne2]
    exact hdr5
  obtain ⟨fsR, heqR, r1, r2, r3, r4, r5, rpres, runder⟩ :=
    remove_hosting_cleans env (FS.set fs5 P.sites_enabled_path (Node.symlink P.sites_available_path))
      site nroot wroot logd none P hP hv f6En f6Av
      (by rw [f6Ac]; intro h; cases h) (by rw [f6Er]; intro h; cases h)
      (Or.inr f6Doc) ht hr
  refine ⟨by rw [heqCreate], by rw [heqCreate, heqR], ?_⟩
  intro q
  rw [heqCreate]
  show (remove_hosting env (FS.set fs5 P.sites_enabled_path
    (Node.symlink P.sites_available_path)) site nroot wroot logd none).1 q = fs q
  rw [heqR]
  show fsR q = fs q
  by_cases hq1 : q = P.sites_enabled_path
  · rw [hq1, r1, hEnab]
  · by_cases hq2 : q = P.sites_available_path
    · rw [hq2, r2, hAvail]
    · by_cases hq3 : q = P.document_root
      · rw [hq3, r3, hDocN]
      · by_cases hq4 : isUnder P.document_root q = true
        · rcases runder q hq4 with h | h
          · rw [h, hUnder q hq4]
          · rw [h, f6, if_neg hq1, hpres5 q hq2 hq1 hq3]
        · by_cases hq5 : q = P.access_log_path
          · rw [hq5, r4, hAcc]
          · by_cases hq6 : q = P.error_log_path
            · rw [hq6, r5, hErr]
            · rw [rpres q hq1 hq2 hq3 (by simpa using hq4) hq5 hq6,
                f6, if_neg hq1, hpres5 q hq2 hq1 hq3]

theorem create_remove_roundtrip_witness :
    (create_hosting envOk baseFS "blog" (.many ["blog.example.com"])
        "/etc/nginx" "/var/www" "/var/log/nginx" none none true).2 = .ok envOk.reloadResult
    ∧ (remove_hosting envOk
        (create_hosting envOk baseFS "blog" (.many ["blog.example.com"])
          "/etc/nginx" "/var/www" "/var/log/nginx" none none true).1
        "blog" "/etc/nginx" "/var/www" "/var/log/nginx" none).2 = .ok envOk.reloadResult
    ∧ (remove_hosting envOk
        (create_hosting envOk baseFS "blog" (.many ["blog.example.com"])
          "/etc/nginx" "/var/www" "/var/log/nginx" none none true).1
        "blog" "/etc/nginx" "/var/www" "/var/log/nginx" none).1
        "/etc/nginx/sites-available/blog.conf" = baseFS "/etc/nginx/sites-available/blog.conf"
    ∧ (remove_hosting envOk
        (create_hosting envOk baseFS "blog" (.many ["blog.example.com"])
          "/etc/nginx" "/var/www" "/var/log/nginx" none none true).1
        "blog" "/etc/nginx" "/var/www" "/var/log/nginx" none).1
        "/var/www/blog" = baseFS "/var/www/blog" := by
  have hUnder : ∀ q, isUnder (computeSitePaths "/etc/nginx" "/var/www" "/var/log/nginx"
      "blog" none).document_root q = true → baseFS q = none := by
    intro q hq
    have hmem : q ∉ ["/etc", "/etc/nginx", "/etc/nginx/sites-available",
        "/etc/nginx/sites-enabled", "/var", "/var/www", "/var/log", "/var/log/nginx"] := by
      intro hmem
      simp only [List.mem_cons, List.not_mem_nil, or_false] at hmem
      rcases hmem with h | h | h | h | h | h | h | h
      all_goals (subst h; exact absurd hq (by decide))
    simp [baseFS, hmem]
  have H := create_remove_roundtrip envOk baseFS "blog" (.many ["blog.example.com"])
    "/etc/nginx" "/var/www" "/var/log/nginx"
    (computeSitePaths "/etc/nginx" "/var/www" "/var/log/nginx" "blog" none)
    ["/var", "/var/www"] rfl (by decide) (by decide) (by decide) (by decide) (by decide)
    (by decide) (by decide) (by decide) hUnder (by decide) (by decide)
    (by decide) (by decide) (by decide) (by decide) (by decide) (by decide) (by decide)
    (by decide) (by decide) (by decide) (by decide) (by decide) (by decide)
  exact ⟨H.1, H.2.1, H.2.2 "/etc/nginx/sites-available/blog.conf", H.2.2 "/var/www/blog"⟩
